import Mathlib

/-!
The supervisor of a tunnel session, `mtpd.c`.

A shallow embedding of `mtpd.c`.  The process-wide variables of the C file are the
fields of `Globals`; every C function becomes a function on `Globals` that also
returns the list of the externally visible calls it made (`Action`), in order.
What the operating system and the protocol module answer (the result of `poll`,
`waitpid`, `socket`, `connect`, `fork`, of the protocol callbacks) is an argument
of the model, so every statement below is about all possible answers.

Values of C type `int` are integers; the only signed operation of the modelled
code that can leave the `int` range, the negation `-timeout` in `main`, is taken
modulo `2 ^ 32` (`neg_int`).
-/

namespace Mtpd

/-! ## Constants -/

/-- The exit codes of `enum exit_code` in `mtpd.h`.  The header is not part of the
sources at hand, so the numeric values are parameters of the model. -/
structure ExitCodes where
  USAGE_ERROR : Int
  SYSTEM_ERROR : Int
  NETWORK_ERROR : Int
  USER_REQUESTED : Int
  PPPD_EXITED : Int
  deriving DecidableEq, Repr

/-- Signal number of `SIGTERM` (Linux). -/
def SIGTERM : Int := 15

/-- Signal number of `SIGCHLD` (Linux, ARM and x86). -/
def SIGCHLD : Int := 17

/-- Value of `EINTR` in `errno.h`. -/
def EINTR : Int := 4

/-- Smallest value of a 32-bit `int`. -/
def INT_MIN : Int := -2147483648

/-- Largest value of a 32-bit `int`. -/
def INT_MAX : Int := 2147483647

/-- Unary minus on a 32-bit `int` as the machine computes it (two's complement):
exact for every operand except `INT_MIN`, whose negation is not an `int`. -/
def neg_int (x : Int) : Int :=
  ((-x + 2147483648) % 4294967296) - 2147483648

/-- The macro `WIFEXITED(status)` of `sys/wait.h`: the low seven bits (the terminating
signal) are zero. -/
def WIFEXITED (status : Int) : Bool :=
  status % 128 == 0

/-- The macro `WEXITSTATUS(status)` of `sys/wait.h`: bits 8 to 15 of the status word. -/
def WEXITSTATUS (status : Int) : Int :=
  (status / 256) % 256

/-! ## Observable calls -/

/-- Levels used in the calls of `log_print`. -/
inductive LogLevel where
  | INFO
  | WARNING
  | FATAL
  deriving DecidableEq, Repr

/-- The calls a run makes to the outside, in the order it makes them.  A call of
`log_print` is recorded with its level and its format string. -/
inductive Action where
  /-- A call `log_print(level, format, ...)` -/
  | log (level : LogLevel) (format : String)
  /-- A `printf` of one complete line of the usage text -/
  | printf (text : String)
  /-- A call `protocols[index]->connect(argc, argv)` with the arguments it receives -/
  | proto_connect (index : Nat) (args : List String)
  /-- A call `poll(pollfds, 2, timeout)` -/
  | poll (timeout : Int)
  /-- A call `the_protocol->process()` -/
  | process
  /-- A call `the_protocol->timeout()` -/
  | timeout
  /-- A call `read(signals[0], &signal, sizeof(int))` -/
  | read_signal
  /-- A call `waitpid(pid, &error, WNOHANG)` -/
  | waitpid (pid : Int)
  /-- entry into `stop_pppd()` -/
  | stop_pppd
  /-- A call `kill(pid, sig)` -/
  | kill (pid : Int) (sig : Int)
  /-- A call `sleep(seconds)` -/
  | sleep (seconds : Nat)
  /-- A call `the_protocol->shutdown()` -/
  | shutdown
  /-- A call `socket(...)` for the candidate address number `index` -/
  | socket (index : Nat)
  /-- A call `connect(the_socket, ...)` to the candidate address number `index` -/
  | sys_connect (index : Nat)
  /-- A call `fcntl(fd, F_SETFD, FD_CLOEXEC)` -/
  | fcntl_cloexec (fd : Int)
  /-- A call `fork()` -/
  | fork
  /-- A call `close(fd)` -/
  | close (fd : Int)
  /-- A call `execvp(file, args)` with the argument vector read up to its terminator -/
  | execvp (file : String) (args : List String)
  deriving DecidableEq, Repr

/-! ## Process state -/

/-- The file-scope variables of `mtpd.c`.  `the_protocol` is the index of the
selected descriptor in the table `protocols` (`none` for `NULL`); `pppd_argv`
points into `argv`, so it is the list of the strings from that position on. -/
structure Globals where
  the_socket : Int
  the_protocol : Option Nat
  pppd_argc : Nat
  pppd_argv : List String
  pppd_pid : Int
  deriving DecidableEq, Repr

/-- The values the variables have when the program starts (`the_socket = -1`, all
other statics zero). -/
def Globals.initial : Globals :=
  { the_socket := -1, the_protocol := none, pppd_argc := 0, pppd_argv := [], pppd_pid := 0 }

/-- The function `stop_pppd()`: with a tracked child, log, `kill(pppd_pid, SIGTERM)`, `sleep(5)`,
`pppd_pid = 0`; nothing otherwise. -/
def stop_pppd (g : Globals) : List Action × Globals :=
  if g.pppd_pid ≠ 0 then
    ([Action.stop_pppd,
      Action.log LogLevel.INFO "Sending signal to pppd (pid = %d)",
      Action.kill g.pppd_pid SIGTERM,
      Action.sleep 5],
     { g with pppd_pid := 0 })
  else
    ([Action.stop_pppd], g)

/-- The calls of `kill` in a trace. -/
def kills (trace : List Action) : List Action :=
  trace.filter fun a => match a with
    | Action.kill _ _ => true
    | _ => false

/-- The calls of `sleep` in a trace. -/
def sleeps (trace : List Action) : List Action :=
  trace.filter fun a => match a with
    | Action.sleep _ => true
    | _ => false

/-! ## Protocol descriptors and start-up -/

/-- What a protocol callback (`connect`, `process`, `timeout`) that returns to its
caller has done, as far as `mtpd.c` can see it: its return value and the values
of the two variables a protocol module can change, `the_socket` (declared
`extern`, set through `create_socket`) and `pppd_pid` (set through
`start_pppd`). -/
structure Callback where
  ret : Int
  the_socket : Int
  pppd_pid : Int
  deriving DecidableEq, Repr

/-- A descriptor of the table `protocols` (`struct protocol` of `mtpd.h`): name,
usage text and the `connect` callback as a function of the arguments it is
given.  The callbacks `process`, `timeout` and `shutdown` take no arguments; the
event loop records their calls and is given their results round by round. -/
structure protocol where
  name : String
  usage : String
  connect : List String → Callback

/-- How a C function ends: it returns a value, or it calls `exit(status)`. -/
inductive Ret (α : Type) where
  | ret (value : α)
  | exit (status : Int)
  deriving DecidableEq, Repr

/-- The result of running a C function: the calls made, how it ended, and the
variables afterwards. -/
structure Call (α : Type) where
  trace : List Action
  result : Ret α
  g : Globals
  deriving DecidableEq, Repr

/-- The scan `for (i = 2; i < argc; ++i) if (!argv[i][0]) ...` of the start-up code:
the list is `argv[i], ..., argv[argc - 1]`; the result is the index of the first
empty string, if there is one. -/
def find_sentinel : Nat → List String → Option Nat
  | _, [] => none
  | i, a :: rest => if a = "" then some i else find_sentinel (i + 1) rest

/-- The scan `for (i = 0; protocols[i]; ++i) if (!strcmp(argv[1], protocols[i]->name))`:
the first descriptor, from position `i` on, whose name is `name`. -/
def find_protocol (name : String) : Nat → List protocol → Option (Nat × protocol)
  | _, [] => none
  | i, p :: rest => if name = p.name then some (i, p) else find_protocol name (i + 1) rest

/-- The usage text: the heading with `argv[0]`, then one line for every entry of
the table. -/
def usage_text (protocols : List protocol) (argv : List String) : List Action :=
  Action.printf ("Usage: " ++ argv.headD "(null)" ++
      " <protocol-args> '' <pppd-args>, where protocol-args are one of:\n") ::
    protocols.map fun p => Action.printf ("       " ++ p.name ++ " " ++ p.usage ++ "\n")

/-- The function `initialize(argc, argv)` of `mtpd.c` (`initialize` alone is a
keyword of Lean), with `argc = argv.length`.
First the arguments after the first empty one are recorded for pppd and `argc` is
cut back to the position of that empty argument; then the table is searched for
`argv[1]` and the `connect` of the entry found is called with `argv[2..argc-1]`;
without an active protocol, or when `connect` returned `-USAGE_ERROR`, the usage
text is printed and the process exits with `USAGE_ERROR`. -/
def initialize_mtpd (codes : ExitCodes) (protocols : List protocol) (argv : List String)
    (g : Globals) : Call Int :=
  let sentinel := find_sentinel 2 (argv.drop 2)
  let g1 : Globals :=
    match sentinel with
    | some i => { g with pppd_argc := argv.length - i - 1, pppd_argv := argv.drop (i + 1) }
    | none => g
  let argc : Nat :=
    match sentinel with
    | some i => i
    | none => argv.length
  let found := if 2 ≤ argc then find_protocol (argv.getD 1 "") 0 protocols else none
  let args := (argv.drop 2).take (argc - 2)
  let called : List Action × Int × Globals :=
    match found with
    | some (i, p) =>
      ([Action.log LogLevel.INFO "Using protocol %s", Action.proto_connect i args],
       (p.connect args).ret,
       { g1 with the_protocol := some i,
                 the_socket := (p.connect args).the_socket,
                 pppd_pid := (p.connect args).pppd_pid })
    | none => ([], 0, g1)
  if called.2.2.the_protocol = none ∨ called.2.1 = -codes.USAGE_ERROR then
    { trace := called.1 ++ usage_text protocols argv,
      result := Ret.exit codes.USAGE_ERROR,
      g := called.2.2 }
  else
    { trace := called.1, result := Ret.ret called.2.1, g := called.2.2 }

/-- The calls of a protocol's `connect` in a trace. -/
def connects (trace : List Action) : List Action :=
  trace.filter fun a => match a with
    | Action.proto_connect _ _ => true
    | _ => false

/-! ## The event loop of `main` -/

/-- What one call of `poll(pollfds, 2, timeout)` leaves behind: its return value,
`errno`, and the `revents` fields of the signal pipe (`pollfds[0]`) and of the
socket (`pollfds[1]`) as they are when the call has returned. -/
structure PollOutcome where
  ret : Int
  errno : Int
  revents0 : Int
  revents1 : Int
  deriving DecidableEq, Repr

/-- The contract of `poll(2)` for two descriptors: the call fails with `-1`, or it
returns the number of descriptors whose `revents` is not zero, and it returns 0
(the time limit has passed) only when it was given a time limit. -/
def PollOutcome.posix (timeout : Int) (p : PollOutcome) : Prop :=
  p.ret = -1 ∨
  (p.ret = (if p.revents0 ≠ 0 then 1 else 0) + (if p.revents1 ≠ 0 then 1 else 0) ∧
    (p.ret = 0 → 0 ≤ timeout))

instance (timeout : Int) (p : PollOutcome) : Decidable (p.posix timeout) := by
  unfold PollOutcome.posix
  infer_instance

/-- One turn of the loop as the environment decides it: what `poll` answers and,
for the case that the turn calls `process()` or `timeout()`, what that callback
does. -/
structure Round where
  poll : PollOutcome
  callback : Callback
  deriving DecidableEq, Repr

/-- The four ways the body of the loop continues after `poll`. -/
inductive Dispatch where
  /-- The call of `poll` returned -1 with `errno != EINTR`: `exit(SYSTEM_ERROR)` -/
  | fatal
  /-- The field `pollfds[0].revents` is set: `break` -/
  | signal
  /-- The field `pollfds[1].revents` is set: `the_protocol->process()` -/
  | process
  /-- otherwise: `the_protocol->timeout()` -/
  | timeout
  deriving DecidableEq, Repr

/-- The tests of the loop body, in the order of the source. -/
def dispatch (p : PollOutcome) : Dispatch :=
  if p.ret = -1 ∧ p.errno ≠ EINTR then Dispatch.fatal
  else if p.revents0 ≠ 0 then Dispatch.signal
  else if p.revents1 ≠ 0 then Dispatch.process
  else Dispatch.timeout

/-- The third argument of `poll`: `timeout ? timeout : -1`. -/
def poll_timeout (timeout : Int) : Int :=
  if timeout ≠ 0 then timeout else -1

/-- How the loop `while (timeout >= 0)` stands when the rounds are used up. -/
inductive LoopEnd where
  /-- the process is blocked in `poll`, `timeout` being the current value -/
  | waiting (timeout : Int)
  /-- The call `exit(SYSTEM_ERROR)` after a failed `poll` -/
  | fatal
  /-- the loop was left, by `break` or by its condition, with this `timeout` -/
  | done (timeout : Int)
  deriving DecidableEq, Repr

/-- Result of the loop: calls made, how it stands, variables. -/
structure LoopRun where
  trace : List Action
  ending : LoopEnd
  g : Globals
  deriving DecidableEq, Repr

/-- The variables after a callback has returned. -/
def after_callback (g : Globals) (c : Callback) : Globals :=
  { g with the_socket := c.the_socket, pppd_pid := c.pppd_pid }

/-- The loop `while (timeout >= 0) { poll; ...; timeout = process() or timeout() }`
of `main`, run against the answers of the environment.  A call of `poll` that has
not returned (no round left) is not part of the trace. -/
def event_loop : List Round → Int → Globals → LoopRun
  | [], timeout, g =>
    if 0 ≤ timeout then { trace := [], ending := LoopEnd.waiting timeout, g := g }
    else { trace := [], ending := LoopEnd.done timeout, g := g }
  | r :: rest, timeout, g =>
    if 0 ≤ timeout then
      match dispatch r.poll with
      | Dispatch.fatal =>
        { trace := [Action.poll (poll_timeout timeout),
                    Action.log LogLevel.FATAL "Poll() %s"],
          ending := LoopEnd.fatal, g := g }
      | Dispatch.signal =>
        { trace := [Action.poll (poll_timeout timeout)],
          ending := LoopEnd.done timeout, g := g }
      | Dispatch.process =>
        let next := event_loop rest r.callback.ret (after_callback g r.callback)
        { next with
          trace := Action.poll (poll_timeout timeout) :: Action.process :: next.trace }
      | Dispatch.timeout =>
        let next := event_loop rest r.callback.ret (after_callback g r.callback)
        { next with
          trace := Action.poll (poll_timeout timeout) :: Action.timeout :: next.trace }
    else { trace := [], ending := LoopEnd.done timeout, g := g }

/-- What `waitpid(pppd_pid, &error, WNOHANG)` leaves behind: its return value and
the value of `error` when it has returned. -/
structure WaitOutcome where
  ret : Int
  status : Int
  deriving DecidableEq, Repr

/-- The answers of the environment to the part of `main` that starts with the
loop: the rounds of the loop, the number that `read` takes from the signal
pipe, and what `waitpid` answers. -/
structure Env where
  rounds : List Round
  signal : Int
  wait : WaitOutcome
  deriving DecidableEq, Repr

/-- How a run of the process stands at its end. -/
inductive Outcome where
  /-- still blocked in `poll` -/
  | waiting
  /-- The call `exit(status)` was made -/
  | exited (status : Int)
  /-- The function `main` returned `status` -/
  | returned (status : Int)
  deriving DecidableEq, Repr

/-- A run of the process: calls made, the end, the variables. -/
structure Run where
  trace : List Action
  outcome : Outcome
  g : Globals
  deriving DecidableEq, Repr

/-- The call `exit(status)` once `atexit(stop_pppd)` is in effect: the handler runs, then the
process ends. -/
def exit_process (status : Int) (g : Globals) : Run :=
  { trace := (stop_pppd g).1, outcome := Outcome.exited status, g := (stop_pppd g).2 }

/-- The computation of `error` after the loop (the `if (timeout < 0) ... else ...` of
`main`): the calls made, the value of `error`, the variables.  `error` is
`-timeout` for a negative `timeout`; otherwise one number is read from the pipe,
and `error` is the exit status of pppd plus `PPPD_EXITED` when the signal is
`SIGCHLD`, `waitpid` returns `pppd_pid` and the child exited (`pppd_pid` is then
cleared), and `USER_REQUESTED` if not. -/
def exit_status (codes : ExitCodes) (signal : Int) (w : WaitOutcome) (timeout : Int)
    (g : Globals) : List Action × Int × Globals :=
  if timeout < 0 then ([], neg_int timeout, g)
  else if signal = SIGCHLD then
    if w.ret = g.pppd_pid ∧ WIFEXITED w.status = true then
      ([Action.read_signal, Action.log LogLevel.INFO "Received signal %d",
        Action.waitpid g.pppd_pid,
        Action.log LogLevel.INFO "Pppd is terminated (status = %d)"],
       WEXITSTATUS w.status + codes.PPPD_EXITED,
       { g with pppd_pid := 0 })
    else
      ([Action.read_signal, Action.log LogLevel.INFO "Received signal %d",
        Action.waitpid g.pppd_pid],
       codes.USER_REQUESTED, g)
  else
    ([Action.read_signal, Action.log LogLevel.INFO "Received signal %d"],
     codes.USER_REQUESTED, g)

/-- The code of `main` after the loop: `error` is computed, then `stop_pppd()`,
`the_protocol->shutdown()`, `return error`, after which the exit handler
`stop_pppd` runs. -/
def teardown (codes : ExitCodes) (signal : Int) (w : WaitOutcome) (timeout : Int)
    (g : Globals) : Run :=
  let status := exit_status codes signal w timeout g
  let stopped := stop_pppd status.2.2
  let handler := stop_pppd stopped.2
  { trace := status.1 ++ stopped.1 ++
      [Action.shutdown, Action.log LogLevel.INFO "Mtpd is terminated (status = %d)"] ++
      handler.1,
    outcome := Outcome.returned status.2.1,
    g := handler.2 }

/-- The part of `main` from the loop to the end, started with the `timeout` that
`initialize` returned. -/
def run_loop (codes : ExitCodes) (env : Env) (timeout : Int) (g : Globals) : Run :=
  let l := event_loop env.rounds timeout g
  match l.ending with
  | LoopEnd.waiting _ => { trace := l.trace, outcome := Outcome.waiting, g := l.g }
  | LoopEnd.fatal =>
    let e := exit_process codes.SYSTEM_ERROR l.g
    { e with trace := l.trace ++ e.trace }
  | LoopEnd.done t =>
    let e := teardown codes env.signal env.wait t l.g
    { e with trace := l.trace ++ e.trace }

/-- The function `main(argc, argv)`: `pipe_ret` is the result of `pipe(signals)`.
A failing `pipe` ends the process before the exit handler is registered.  The
calls `srandom`, `signal` and `atexit` leave no entry in the trace. -/
def main (codes : ExitCodes) (protocols : List protocol) (pipe_ret : Int) (env : Env)
    (argv : List String) : Run :=
  if pipe_ret = -1 then
    { trace := [Action.log LogLevel.FATAL "Pipe() %s"],
      outcome := Outcome.exited codes.SYSTEM_ERROR,
      g := Globals.initial }
  else
    let init := initialize_mtpd codes protocols argv Globals.initial
    match init.result with
    | Ret.exit status =>
      let e := exit_process status init.g
      { e with trace := init.trace ++ e.trace }
    | Ret.ret timeout =>
      let e := run_loop codes env timeout init.g
      { e with trace := init.trace ++ e.trace }

/-- The calls of `shutdown` in a trace. -/
def shutdowns (trace : List Action) : List Action :=
  trace.filter fun a => a == Action.shutdown

/-- The reads from the signal pipe in a trace. -/
def reads (trace : List Action) : List Action :=
  trace.filter fun a => a == Action.read_signal

/-! ## `create_socket` -/

/-- One entry of the list that `getaddrinfo` returns, seen through what the two
system calls of the loop answer for it: the result of `socket(...)` and the
result of `connect(...)` in case it is called. -/
structure Candidate where
  socket_ret : Int
  connect_ret : Int
  deriving DecidableEq, Repr

/-- The loop `for (r = records; r; r = r->ai_next)` of `create_socket`: the list is
what is left of `records`, the number is the position of its head, the integer
is the current value of `the_socket`.  Every turn assigns the result of `socket`
to `the_socket` and leaves the loop when that is not -1 and `connect` returns 0. -/
def try_candidates : List Candidate → Nat → Int → List Action × Int
  | [], _, the_socket => ([], the_socket)
  | r :: rest, i, _ =>
    if r.socket_ret ≠ -1 then
      if r.connect_ret = 0 then
        ([Action.socket i, Action.sys_connect i], r.socket_ret)
      else
        let next := try_candidates rest (i + 1) r.socket_ret
        (Action.socket i :: Action.sys_connect i :: next.1, next.2)
    else
      let next := try_candidates rest (i + 1) r.socket_ret
      (Action.socket i :: next.1, next.2)

/-- The function `create_socket(family, type, server, port)`: `gai_error` is the
result of `getaddrinfo` and `records` the list it produced. -/
def create_socket (codes : ExitCodes) (gai_error : Int) (records : List Candidate)
    (g : Globals) : Call Unit :=
  if gai_error ≠ 0 then
    { trace := [Action.log LogLevel.INFO "Connecting to %s port %s",
                Action.log LogLevel.FATAL "Getaddrinfo() %s"],
      result := Ret.exit codes.NETWORK_ERROR,
      g := g }
  else
    let tried := try_candidates records 0 g.the_socket
    if tried.2 = -1 then
      { trace := Action.log LogLevel.INFO "Connecting to %s port %s" :: tried.1 ++
          [Action.log LogLevel.FATAL "Connect() %s"],
        result := Ret.exit codes.NETWORK_ERROR,
        g := { g with the_socket := tried.2 } }
    else
      { trace := Action.log LogLevel.INFO "Connecting to %s port %s" :: tried.1 ++
          [Action.fcntl_cloexec tried.2,
           Action.log LogLevel.INFO "Connection established (socket = %d)"],
        result := Ret.ret (),
        g := { g with the_socket := tried.2 } }

/-- A candidate address that gives a socket and to which `connect` succeeds. -/
def Candidate.reachable (c : Candidate) : Prop :=
  c.socket_ret ≠ -1 ∧ c.connect_ret = 0

instance (c : Candidate) : Decidable c.reachable := by
  unfold Candidate.reachable
  infer_instance

/-! ## `start_pppd` -/

/-- The string that `sprintf(number, "%d", pppox)` writes. -/
def decimal (pppox : Int) : String :=
  toString pppox

/-- The number that a string of decimal digits writes, read from the left: every
character counts with its distance from the character 0 (code 48). -/
def decimal_value (cs : List Char) : Nat :=
  cs.foldl (fun v c => 10 * v + (c.toNat - 48)) 0

/-- The array `char *args[1024] = {"", "nodetach", "pppox", number}` when `number`
has been filled in: four strings and 1020 null pointers. -/
def initial_args (pppox : Int) : List (Option String) :=
  [some "", some "nodetach", some "pppox", some (decimal pppox)] ++ List.replicate 1020 none

/-- The loop `for (i = 0; i < pppd_argc; ++i) args[4 + i] = pppd_argv[i]`: the first
number is `pppd_argc - i`, the turns still to do.  A read behind the end of
`pppd_argv` or a write behind the end of `args` has no defined result. -/
def copy_args (pppd_argv : List String) : Nat → Nat → List (Option String) →
    Option (List (Option String))
  | 0, _, args => some args
  | n + 1, i, args =>
    match pppd_argv[i]? with
    | none => none
    | some a =>
      if 4 + i < args.length then copy_args pppd_argv n (i + 1) (args.set (4 + i) (some a))
      else none

/-- The argument vector that `execvp` reads from an array: the strings up to the
first null pointer; without a null pointer in the array the read runs over
its end. -/
def read_argv : List (Option String) → Option (List String)
  | [] => none
  | none :: _ => some []
  | some a :: rest => (read_argv rest).map fun l => a :: l

/-- How a call of `start_pppd` ends. -/
inductive Started where
  /-- in the calling process: it returned or it called `exit` -/
  | parent (c : Call Unit)
  /-- in the forked child: `execvp("pppd", args)` replaced the program -/
  | child_exec (trace : List Action)
  /-- in the forked child: `execvp` failed, `exit(1)` -/
  | child_exit (trace : List Action) (status : Int)
  /-- in the forked child: the array `args` was overrun -/
  | undefined
  deriving DecidableEq, Repr

/-- The function `start_pppd(pppox)`: `fork_ret` is what `fork()` returns in the
process that is followed (0 in the child), `exec_fails` says whether `execvp`
comes back. -/
def start_pppd (codes : ExitCodes) (pppox : Int) (fork_ret : Int) (exec_fails : Bool)
    (g : Globals) : Started :=
  if g.pppd_pid ≠ 0 then
    Started.parent
      { trace := [Action.log LogLevel.WARNING "Pppd is already started (pid = %d)",
                  Action.close pppox],
        result := Ret.ret (), g := g }
  else if fork_ret < 0 then
    Started.parent
      { trace := [Action.log LogLevel.INFO "Starting pppd (pppox = %d)", Action.fork,
                  Action.log LogLevel.FATAL "Fork() %s"],
        result := Ret.exit codes.SYSTEM_ERROR,
        g := { g with pppd_pid := fork_ret } }
  else if fork_ret = 0 then
    match (copy_args g.pppd_argv g.pppd_argc 0 (initial_args pppox)).bind read_argv with
    | none => Started.undefined
    | some argv =>
      if exec_fails then
        Started.child_exit
          [Action.log LogLevel.INFO "Starting pppd (pppox = %d)", Action.fork,
           Action.execvp "pppd" argv, Action.log LogLevel.FATAL "Exec() %s"] 1
      else
        Started.child_exec
          [Action.log LogLevel.INFO "Starting pppd (pppox = %d)", Action.fork,
           Action.execvp "pppd" argv]
  else
    Started.parent
      { trace := [Action.log LogLevel.INFO "Starting pppd (pppox = %d)", Action.fork,
                  Action.log LogLevel.INFO "Pppd started (pid = %d)", Action.close pppox],
        result := Ret.ret (),
        g := { g with pppd_pid := fork_ret } }

/-- The arguments recorded for pppd: `pppd_argv[0], ..., pppd_argv[pppd_argc - 1]`. -/
def child_args (g : Globals) : List String :=
  g.pppd_argv.take g.pppd_argc

/-! ## Sample inputs -/

/-- One assignment of the exit codes, used in the examples. -/
def sample_codes : ExitCodes :=
  { USAGE_ERROR := 1, SYSTEM_ERROR := 2, NETWORK_ERROR := 3, USER_REQUESTED := 5,
    PPPD_EXITED := 32 }

/-- A descriptor as the one of L2TP: its `connect` sets the socket 5 and asks for a
timeout of one second. -/
def sample_l2tp : protocol :=
  { name := "l2tp", usage := "<server> <port> <secret>",
    connect := fun _ => { ret := 1000, the_socket := 5, pppd_pid := 0 } }

/-- A command line with protocol arguments, the empty argument and two arguments
for pppd. -/
def sample_argv : List String :=
  ["mtpd", "l2tp", "vpn.example.org", "1701", "", "debug", "mtu"]

/-- The variables with socket 5 and a tracked child 77. -/
def sample_tracked : Globals :=
  { the_socket := 5, the_protocol := some 0, pppd_argc := 2, pppd_argv := ["debug", "mtu"],
    pppd_pid := 77 }

/-- A turn in which the socket is readable and `process()` starts pppd (pid 77)
and asks for a timeout of three seconds. -/
def round_data : Round :=
  { poll := { ret := 1, errno := 0, revents0 := 0, revents1 := 1 },
    callback := { ret := 3000, the_socket := 5, pppd_pid := 77 } }

/-- A turn in which the time limit passes and `timeout()` asks to wait without
limit. -/
def round_expired : Round :=
  { poll := { ret := 0, errno := 0, revents0 := 0, revents1 := 0 },
    callback := { ret := 0, the_socket := 5, pppd_pid := 77 } }

/-- A turn in which the socket is readable and `process()` returns
`-NETWORK_ERROR`. -/
def round_network_error : Round :=
  { poll := { ret := 1, errno := 0, revents0 := 0, revents1 := 1 },
    callback := { ret := -3, the_socket := 5, pppd_pid := 77 } }

/-- A turn in which the signal pipe is readable. -/
def round_signal : Round :=
  { poll := { ret := 1, errno := 0, revents0 := 1, revents1 := 0 },
    callback := { ret := 0, the_socket := 5, pppd_pid := 77 } }

/-- A turn in which `poll` is interrupted: it returns -1 with `EINTR` and no
`revents` is set. -/
def round_interrupted : Round :=
  { poll := { ret := -1, errno := 4, revents0 := 0, revents1 := 0 },
    callback := { ret := 0, the_socket := 5, pppd_pid := 77 } }

/-- A turn in which `poll` fails with `EBADF` (9). -/
def round_failed : Round :=
  { poll := { ret := -1, errno := 9, revents0 := 0, revents1 := 0 },
    callback := { ret := 0, the_socket := 5, pppd_pid := 77 } }

/-- A first turn in which `poll` fails with `EFAULT` (14) and leaves `revents`
as it found it, the field of the signal pipe holding a value other than 0. -/
def round_failed_unwritten : Round :=
  { poll := { ret := -1, errno := 14, revents0 := 1, revents1 := 0 },
    callback := { ret := 0, the_socket := 5, pppd_pid := 0 } }

/-- The child has exited with status 2: the status word `2 << 8`. -/
def wait_exit_2 : WaitOutcome :=
  { ret := 77, status := 512 }

/-- The environment of a run in which the socket is readable once and `poll` then
fails. -/
def env_failed_poll : Env :=
  { rounds := [round_data, round_failed], signal := 0, wait := wait_exit_2 }

/-- The environment of a run whose first `poll` fails. -/
def env_failed_first : Env :=
  { rounds := [round_failed_unwritten], signal := 15, wait := wait_exit_2 }

/-- The environment of a run that ends with `process()` returning
`-NETWORK_ERROR`. -/
def env_network_error : Env :=
  { rounds := [round_data] ++ round_network_error :: [round_expired], signal := 0,
    wait := wait_exit_2 }

/-- The environment of a run in which pppd exits with status 2: `SIGCHLD` (17)
arrives while the loop waits without a time limit. -/
def env_child_exit : Env :=
  { rounds := [round_data, round_expired] ++ round_signal :: [], signal := 17,
    wait := wait_exit_2 }

/-- The environment of a run that is ended by `SIGTERM` (15). -/
def env_sigterm : Env :=
  { rounds := [round_data, round_signal], signal := 15, wait := wait_exit_2 }

/-- Four candidate addresses: `connect` fails for the first, `socket` for the
second, the third and the fourth are reachable. -/
def sample_records : List Candidate :=
  [{ socket_ret := 3, connect_ret := -1 }, { socket_ret := -1, connect_ret := 0 },
   { socket_ret := 4, connect_ret := 0 }, { socket_ret := 5, connect_ret := 0 }]

/-- The variables in the child before pppd is started: two recorded arguments. -/
def sample_untracked : Globals :=
  { the_socket := 5, the_protocol := some 0, pppd_argc := 2, pppd_argv := ["debug", "mtu"],
    pppd_pid := 0 }

/-! ## Theorems -/

/-! ### Facts about the two scans -/

theorem find_sentinel_index (l : List String) (s i : Nat) (hi : l[i]? = some "")
    (hmin : ∀ j, j < i → l[j]? ≠ some "") : find_sentinel s l = some (s + i) := by
  induction l generalizing s i with
  | nil => simp at hi
  | cons a rest ih =>
    cases i with
    | zero =>
      simp at hi
      simp [find_sentinel, hi]
    | succ n =>
      have ha : a ≠ "" := by
        have := hmin 0 (Nat.succ_pos n)
        simpa using this
      have hrest : find_sentinel (s + 1) rest = some (s + 1 + n) := by
        apply ih
        · simpa using hi
        · intro j hj
          have := hmin (j + 1) (Nat.succ_lt_succ hj)
          simpa using this
      simp [find_sentinel, ha, hrest]
      omega

theorem find_sentinel_absent (l : List String) (s : Nat) (h : ∀ j : Nat, l[j]? ≠ some "") :
    find_sentinel s l = none := by
  induction l generalizing s with
  | nil => rfl
  | cons a rest ih =>
    have ha : a ≠ "" := by
      have := h 0
      simpa using this
    have hrest : find_sentinel (s + 1) rest = none := by
      apply ih
      intro j
      have := h (j + 1)
      simpa using this
    simp [find_sentinel, ha, hrest]

theorem find_protocol_index (name : String) (l : List protocol) (s i : Nat) (p : protocol)
    (hi : l[i]? = some p) (hp : p.name = name)
    (hmin : ∀ j q, j < i → l[j]? = some q → q.name ≠ name) :
    find_protocol name s l = some (s + i, p) := by
  induction l generalizing s i with
  | nil => simp at hi
  | cons a rest ih =>
    cases i with
    | zero =>
      simp at hi
      subst hi
      simp [find_protocol, hp]
    | succ n =>
      have ha : name ≠ a.name := by
        have := hmin 0 a (Nat.succ_pos n) (by simp)
        exact fun h => this h.symm
      have hrest : find_protocol name (s + 1) rest = some (s + 1 + n, p) := by
        apply ih
        · simpa using hi
        · intro j q hj hq
          exact hmin (j + 1) q (Nat.succ_lt_succ hj) (by simpa using hq)
      simp [find_protocol, ha, hrest]
      omega

theorem find_protocol_absent (name : String) (l : List protocol) (s : Nat)
    (h : ∀ p ∈ l, p.name ≠ name) : find_protocol name s l = none := by
  induction l generalizing s with
  | nil => rfl
  | cons a rest ih =>
    have ha : name ≠ a.name := fun e => h a (by simp) e.symm
    have hrest : find_protocol name (s + 1) rest = none :=
      ih (s + 1) (fun p hp => h p (by simp [hp]))
    simp [find_protocol, ha, hrest]

theorem find_protocol_present (name : String) (l : List protocol) (s : Nat)
    (h : ∃ p ∈ l, p.name = name) : ∃ k p, find_protocol name s l = some (k, p) := by
  induction l generalizing s with
  | nil => simp at h
  | cons a rest ih =>
    by_cases ha : name = a.name
    · exact ⟨s, a, by simp [find_protocol, ha]⟩
    · obtain ⟨p, hp, hn⟩ := h
      have hin : p ∈ rest := by
        rcases List.mem_cons.mp hp with e | e
        · exact absurd (e ▸ hn).symm ha
        · exact e
      obtain ⟨k, q, hk⟩ := ih (s + 1) ⟨p, hin, hn⟩
      exact ⟨k, q, by simp [find_protocol, ha, hk]⟩

theorem find_sentinel_ge (l : List String) (s i : Nat) (h : find_sentinel s l = some i) :
    s ≤ i := by
  induction l generalizing s with
  | nil => simp [find_sentinel] at h
  | cons a rest ih =>
    by_cases ha : a = ""
    · simp [find_sentinel, ha] at h
      omega
    · simp [find_sentinel, ha] at h
      have := ih (s + 1) h
      omega

/-- After the scan for the empty argument the count `argc` is still at least two
whenever `argv[1]` exists. -/
theorem argc_after_scan (argv : List String) (h : 2 ≤ argv.length) :
    2 ≤ (match find_sentinel 2 (argv.drop 2) with
          | some i => i
          | none => argv.length) := by
  cases hs : find_sentinel 2 (argv.drop 2) with
  | none => simpa using h
  | some i => simpa using find_sentinel_ge _ _ _ hs

/-- Without `argv[1]`, or with an `argv[1]` that is no name of the table, and with
no protocol active before, `initialize` prints the usage text and exits; only
the arguments for pppd are recorded. -/
theorem initialize_usage (codes : ExitCodes) (protocols : List protocol)
    (argv : List String) (g : Globals)
    (hno : argv.length < 2 ∨ ∀ p ∈ protocols, p.name ≠ argv.getD 1 "")
    (hg : g.the_protocol = none) :
    initialize_mtpd codes protocols argv g =
      { trace := usage_text protocols argv,
        result := Ret.exit codes.USAGE_ERROR,
        g := match find_sentinel 2 (argv.drop 2) with
          | some i => { g with pppd_argc := argv.length - i - 1, pppd_argv := argv.drop (i + 1) }
          | none => g } := by
  have hfound : (if 2 ≤ (match find_sentinel 2 (argv.drop 2) with
        | some i => i
        | none => argv.length) then find_protocol (argv.getD 1 "") 0 protocols else none)
      = none := by
    rcases hno with h | h
    · have hdrop : argv.drop 2 = [] := List.drop_eq_nil_of_le (by omega)
      simp [hdrop, find_sentinel]
      intro h2
      omega
    · rw [find_protocol_absent _ protocols 0 h]
      simp
  have hproto : (match find_sentinel 2 (argv.drop 2) with
        | some i => { g with pppd_argc := argv.length - i - 1, pppd_argv := argv.drop (i + 1) }
        | none => g).the_protocol = none := by
    split <;> simp [hg]
  unfold initialize_mtpd
  simp only [hfound, hproto, true_or, if_true, List.nil_append]

/-- C3: `initialize` activates the first descriptor of the table whose name is
`argv[1]` and calls the `connect` of that descriptor, once; when there is no
`argv[1]` or no descriptor has that name, no `connect` is called, the usage text
with one line for every descriptor is printed and the process exits with
`USAGE_ERROR`. -/
theorem initialize_selects_protocol (codes : ExitCodes) (protocols : List protocol)
    (argv : List String) (g : Globals) :
    (∀ (name : String) (i : Nat) (p : protocol),
        argv[1]? = some name → protocols[i]? = some p → p.name = name →
        (∀ j q, j < i → protocols[j]? = some q → q.name ≠ name) →
        ∃ args, connects (initialize_mtpd codes protocols argv g).trace
            = [Action.proto_connect i args] ∧
          (initialize_mtpd codes protocols argv g).g.the_protocol = some i) ∧
    ((argv.length < 2 ∨ ∀ p ∈ protocols, p.name ≠ argv.getD 1 "") →
      (g.the_protocol = none →
        (initialize_mtpd codes protocols argv g).trace = usage_text protocols argv ∧
        (∀ p ∈ protocols, Action.printf ("       " ++ p.name ++ " " ++ p.usage ++ "\n")
            ∈ (initialize_mtpd codes protocols argv g).trace) ∧
        connects (initialize_mtpd codes protocols argv g).trace = [] ∧
        (initialize_mtpd codes protocols argv g).result = Ret.exit codes.USAGE_ERROR) ∧
      (∀ (pipe_ret : Int) (env : Env), pipe_ret ≠ -1 →
        (main codes protocols pipe_ret env argv).trace =
          usage_text protocols argv ++ [Action.stop_pppd] ∧
        (main codes protocols pipe_ret env argv).outcome
          = Outcome.exited codes.USAGE_ERROR)) := by
  constructor
  · intro name i p h1 hi hp hmin
    have hlen : 2 ≤ argv.length := by
      rcases List.getElem?_eq_some.mp h1 with ⟨h, _⟩
      omega
    have hargc := argc_after_scan argv hlen
    have hname : argv.getD 1 "" = name := by simp [List.getD, h1]
    have hfound := find_protocol_index name protocols 0 i p hi hp hmin
    simp only [Nat.zero_add] at hfound
    refine ⟨(argv.drop 2).take ((match find_sentinel 2 (argv.drop 2) with
          | some i => i
          | none => argv.length) - 2), ?_⟩
    unfold initialize_mtpd
    simp only [hargc, if_true, hname, hfound]
    split <;> simp [connects, usage_text]
  · intro hno
    constructor
    · intro hg
      rw [initialize_usage codes protocols argv g hno hg]
      refine ⟨rfl, ?_, ?_, rfl⟩
      · intro p hp
        simp only [usage_text, List.mem_cons, List.mem_map]
        exact Or.inr ⟨p, hp, rfl⟩
      · simp [connects, usage_text]
    · intro pipe_ret env hpipe
      have hinit := initialize_usage codes protocols argv Globals.initial hno rfl
      unfold main
      simp only [hpipe, if_false, hinit]
      split <;> simp [exit_process, stop_pppd, Globals.initial]

/-- C4: when `argv[1]` is a registered name, `initialize` splits the arguments
after it at the first empty one.  If `i` is the least index from 2 on with
`argv[i]` empty, `connect` receives exactly `argv[2..i-1]` (`i - 2` arguments, none
empty) and the arguments recorded for pppd are exactly `argv[i+1..argc-1]`
(`argc - i - 1` of them), in order; if there is no such index, `connect` receives
all of `argv[2..argc-1]` and no argument is recorded for pppd. -/
theorem initialize_splits_arguments (codes : ExitCodes) (protocols : List protocol)
    (argv : List String) (g : Globals) (name : String) (h1 : argv[1]? = some name)
    (hreg : ∃ p ∈ protocols, p.name = name) :
    (∀ i : Nat, 2 ≤ i → argv[i]? = some "" →
        (∀ j : Nat, 2 ≤ j → j < i → argv[j]? ≠ some "") →
        ∃ k, connects (initialize_mtpd codes protocols argv g).trace
            = [Action.proto_connect k ((argv.drop 2).take (i - 2))] ∧
          ((argv.drop 2).take (i - 2)).length = i - 2 ∧
          (∀ j : Nat, j < i - 2 → ((argv.drop 2).take (i - 2))[j]? = argv[2 + j]?) ∧
          (∀ a ∈ (argv.drop 2).take (i - 2), a ≠ "") ∧
          (initialize_mtpd codes protocols argv g).g.pppd_argc = argv.length - i - 1 ∧
          child_args (initialize_mtpd codes protocols argv g).g = argv.drop (i + 1) ∧
          (argv.drop (i + 1)).length = argv.length - i - 1) ∧
    ((∀ j : Nat, 2 ≤ j → argv[j]? ≠ some "") → g.pppd_argc = 0 →
        ∃ k, connects (initialize_mtpd codes protocols argv g).trace
            = [Action.proto_connect k (argv.drop 2)] ∧
          child_args (initialize_mtpd codes protocols argv g).g = []) := by
  have hname : argv.getD 1 "" = name := by simp [List.getD, h1]
  obtain ⟨k, p, hfound⟩ := find_protocol_present name protocols 0 hreg
  have hlen : 2 ≤ argv.length := by
    rcases List.getElem?_eq_some.mp h1 with ⟨h, _⟩
    omega
  constructor
  · intro i hi hempty hmin
    have hilt : i < argv.length := by
      rcases List.getElem?_eq_some.mp hempty with ⟨h, _⟩
      exact h
    have hs : find_sentinel 2 (argv.drop 2) = some i := by
      have := find_sentinel_index (argv.drop 2) 2 (i - 2)
        (by rw [List.getElem?_drop]; rw [show 2 + (i - 2) = i by omega]; exact hempty)
        (by
          intro j hj
          rw [List.getElem?_drop]
          exact hmin (2 + j) (by omega) (by omega))
      rw [this]
      congr 1
      omega
    refine ⟨k, ?_, ?_, ?_, ?_, ?_, ?_, ?_⟩
    · unfold initialize_mtpd
      simp only [hs, hi, if_true, hname, hfound]
      split <;> simp [connects, usage_text]
    · simp
      omega
    · intro j hj
      rw [List.getElem?_take, if_pos hj, List.getElem?_drop]
    · intro a ha hae
      obtain ⟨j, hj⟩ := List.mem_iff_getElem?.mp ha
      rw [List.getElem?_take] at hj
      split at hj
      · rename_i hlt
        rw [List.getElem?_drop] at hj
        exact hmin (2 + j) (by omega) (by omega) (by rw [hj, hae])
      · simp at hj
    · unfold initialize_mtpd
      simp only [hs, hi, if_true, hname, hfound]
      split <;> rfl
    · unfold initialize_mtpd child_args
      simp only [hs, hi, if_true, hname, hfound]
      split <;> simp <;> omega
    · simp
      omega
  · intro hnone hg
    have hs : find_sentinel 2 (argv.drop 2) = none := by
      apply find_sentinel_absent
      intro j
      rw [List.getElem?_drop]
      exact hnone (2 + j) (by omega)
    refine ⟨k, ?_, ?_⟩
    · unfold initialize_mtpd
      simp only [hs, hlen, if_true, hname, hfound]
      split <;> simp [connects, usage_text]
    · unfold initialize_mtpd child_args
      simp only [hs, hlen, if_true, hname, hfound]
      split <;> simp [hg]


/-! ### Facts about the loop -/

/-- Running the loop over more rounds continues where the shorter run was left
waiting. -/
theorem event_loop_append (pre rest : List Round) (t0 : Int) (g0 : Globals) (t : Int)
    (h : (event_loop pre t0 g0).ending = LoopEnd.waiting t) :
    event_loop (pre ++ rest) t0 g0 =
      { trace := (event_loop pre t0 g0).trace ++
          (event_loop rest t (event_loop pre t0 g0).g).trace,
        ending := (event_loop rest t (event_loop pre t0 g0).g).ending,
        g := (event_loop rest t (event_loop pre t0 g0).g).g } := by
  induction pre generalizing t0 g0 with
  | nil =>
    by_cases h0 : 0 ≤ t0
    · simp [event_loop, h0] at h
      subst h
      simp [event_loop, h0]
    · simp [event_loop, h0] at h
  | cons r pre ih =>
    by_cases h0 : 0 ≤ t0
    · cases hd : dispatch r.poll with
      | fatal => simp [event_loop, h0, hd] at h
      | signal => simp [event_loop, h0, hd] at h
      | process =>
        simp only [event_loop, h0, hd, if_true] at h
        have := ih r.callback.ret (after_callback g0 r.callback) h
        simp [event_loop, h0, hd, this]
      | timeout =>
        simp only [event_loop, h0, hd, if_true] at h
        have := ih r.callback.ret (after_callback g0 r.callback) h
        simp [event_loop, h0, hd, this]
    · simp [event_loop, h0] at h

/-- A loop that is waiting has a current `timeout` that is not negative. -/
theorem event_loop_waiting_nonneg (pre : List Round) (t0 : Int) (g0 : Globals) (t : Int)
    (h : (event_loop pre t0 g0).ending = LoopEnd.waiting t) : 0 ≤ t := by
  induction pre generalizing t0 g0 with
  | nil =>
    by_cases h0 : 0 ≤ t0
    · simp [event_loop, h0] at h
      omega
    · simp [event_loop, h0] at h
  | cons r pre ih =>
    by_cases h0 : 0 ≤ t0
    · cases hd : dispatch r.poll with
      | fatal => simp [event_loop, h0, hd] at h
      | signal => simp [event_loop, h0, hd] at h
      | process =>
        simp only [event_loop, h0, hd, if_true] at h
        exact ih r.callback.ret (after_callback g0 r.callback) h
      | timeout =>
        simp only [event_loop, h0, hd, if_true] at h
        exact ih r.callback.ret (after_callback g0 r.callback) h
    · simp [event_loop, h0] at h

/-- The loop itself reads no signal, kills and sleeps not, and calls no
`shutdown`. -/
theorem event_loop_quiet (rounds : List Round) (t0 : Int) (g0 : Globals) :
    kills (event_loop rounds t0 g0).trace = [] ∧
    sleeps (event_loop rounds t0 g0).trace = [] ∧
    shutdowns (event_loop rounds t0 g0).trace = [] ∧
    reads (event_loop rounds t0 g0).trace = [] := by
  induction rounds generalizing t0 g0 with
  | nil =>
    by_cases h0 : 0 ≤ t0 <;> simp [event_loop, h0, kills, sleeps, shutdowns, reads]
  | cons r pre ih =>
    by_cases h0 : 0 ≤ t0
    · have := ih r.callback.ret (after_callback g0 r.callback)
      simp only [kills, sleeps, shutdowns, reads] at this
      cases hd : dispatch r.poll <;>
        simp [event_loop, h0, hd, kills, sleeps, shutdowns, reads, this]
    · simp [event_loop, h0, kills, sleeps, shutdowns, reads]

/-- Negation of a negative `int` above `INT_MIN` is exact. -/
theorem neg_int_exact (t : Int) (hmin : INT_MIN < t) (hmax : t ≤ INT_MAX) : neg_int t = -t := by
  unfold neg_int
  unfold INT_MIN at hmin
  unfold INT_MAX at hmax
  omega

/-- When `pipe` succeeds and `initialize` returns, `main` is the start-up followed
by the loop and the code after it. -/
theorem main_after_initialize (codes : ExitCodes) (protocols : List protocol) (pipe_ret : Int)
    (env : Env) (argv : List String) (timeout : Int) (hpipe : pipe_ret ≠ -1)
    (hinit : (initialize_mtpd codes protocols argv Globals.initial).result = Ret.ret timeout) :
    main codes protocols pipe_ret env argv =
      { trace := (initialize_mtpd codes protocols argv Globals.initial).trace ++
          (run_loop codes env timeout
            (initialize_mtpd codes protocols argv Globals.initial).g).trace,
        outcome := (run_loop codes env timeout
            (initialize_mtpd codes protocols argv Globals.initial).g).outcome,
        g := (run_loop codes env timeout
            (initialize_mtpd codes protocols argv Globals.initial).g).g } := by
  unfold main
  simp only [hpipe, if_false, hinit]

/-- With a negative `timeout` the loop body is not entered. -/
theorem event_loop_negative (rounds : List Round) (t : Int) (g : Globals) (h : t < 0) :
    event_loop rounds t g = { trace := [], ending := LoopEnd.done t, g := g } := by
  have h0 : ¬ 0 ≤ t := by omega
  cases rounds <;> simp [event_loop, h0]

/-- A second `stop_pppd` finds no tracked child. -/
theorem stop_pppd_twice (g : Globals) :
    stop_pppd (stop_pppd g).2 = ([Action.stop_pppd], (stop_pppd g).2) := by
  by_cases h : g.pppd_pid = 0 <;> simp [stop_pppd, h]

/-- The turn of the loop that follows a waiting loop, when it calls a callback. -/
theorem event_loop_callback_round (pre rest : List Round) (r : Round) (t0 : Int)
    (g0 : Globals) (tcur : Int)
    (hpre : (event_loop pre t0 g0).ending = LoopEnd.waiting tcur)
    (hcall : dispatch r.poll = Dispatch.process ∨ dispatch r.poll = Dispatch.timeout) :
    event_loop (pre ++ r :: rest) t0 g0 =
      { trace := (event_loop pre t0 g0).trace ++
          Action.poll (poll_timeout tcur) ::
          (if dispatch r.poll = Dispatch.process then Action.process else Action.timeout) ::
          (event_loop rest r.callback.ret
            (after_callback (event_loop pre t0 g0).g r.callback)).trace,
        ending := (event_loop rest r.callback.ret
            (after_callback (event_loop pre t0 g0).g r.callback)).ending,
        g := (event_loop rest r.callback.ret
            (after_callback (event_loop pre t0 g0).g r.callback)).g } := by
  have h0 := event_loop_waiting_nonneg pre t0 g0 tcur hpre
  rw [event_loop_append pre (r :: rest) t0 g0 tcur hpre]
  rcases hcall with hd | hd <;> simp [event_loop, h0, hd]

/-- C1: when `process()` or `timeout()` returns a negative value `t` in some turn of
the loop of `main`, the loop ends at once: after that callback the run calls
`stop_pppd()`, then `shutdown()`, and nothing else but the exit handler, and
`main` returns the negated value, which is `-t` for every negative `int` that has
a negative in `int` (all but `INT_MIN`); a return of `-NETWORK_ERROR` gives the
status `NETWORK_ERROR`. -/
theorem negative_callback_ends_run (codes : ExitCodes) (pre rest : List Round) (r : Round)
    (signal : Int) (w : WaitOutcome) (t0 : Int) (g0 : Globals) (tcur : Int)
    (hpre : (event_loop pre t0 g0).ending = LoopEnd.waiting tcur)
    (hcall : dispatch r.poll = Dispatch.process ∨ dispatch r.poll = Dispatch.timeout)
    (hneg : r.callback.ret < 0) :
    run_loop codes { rounds := pre ++ r :: rest, signal := signal, wait := w } t0 g0 =
      { trace := (event_loop pre t0 g0).trace ++
          [Action.poll (poll_timeout tcur),
           if dispatch r.poll = Dispatch.process then Action.process else Action.timeout] ++
          (stop_pppd (after_callback (event_loop pre t0 g0).g r.callback)).1 ++
          [Action.shutdown, Action.log LogLevel.INFO "Mtpd is terminated (status = %d)",
           Action.stop_pppd],
        outcome := Outcome.returned (neg_int r.callback.ret),
        g := (stop_pppd (after_callback (event_loop pre t0 g0).g r.callback)).2 } ∧
    (INT_MIN < r.callback.ret →
      (run_loop codes { rounds := pre ++ r :: rest, signal := signal, wait := w } t0 g0).outcome
        = Outcome.returned (-r.callback.ret) ∧
      (r.callback.ret = -codes.NETWORK_ERROR →
        (run_loop codes { rounds := pre ++ r :: rest, signal := signal, wait := w }
          t0 g0).outcome = Outcome.returned codes.NETWORK_ERROR)) := by
  have hrun : run_loop codes { rounds := pre ++ r :: rest, signal := signal, wait := w } t0 g0 =
      { trace := (event_loop pre t0 g0).trace ++
          [Action.poll (poll_timeout tcur),
           if dispatch r.poll = Dispatch.process then Action.process else Action.timeout] ++
          (stop_pppd (after_callback (event_loop pre t0 g0).g r.callback)).1 ++
          [Action.shutdown, Action.log LogLevel.INFO "Mtpd is terminated (status = %d)",
           Action.stop_pppd],
        outcome := Outcome.returned (neg_int r.callback.ret),
        g := (stop_pppd (after_callback (event_loop pre t0 g0).g r.callback)).2 } := by
    unfold run_loop
    simp only [event_loop_callback_round pre rest r t0 g0 tcur hpre hcall,
      event_loop_negative rest _ _ hneg]
    simp [teardown, exit_status, hneg, stop_pppd_twice]
  refine ⟨hrun, ?_⟩
  intro hmin
  have hneg_int : neg_int r.callback.ret = -r.callback.ret :=
    neg_int_exact _ hmin (by unfold INT_MAX; omega)
  rw [hrun, hneg_int]
  refine ⟨rfl, ?_⟩
  intro hnet
  simp [hnet]

/-- The turn of the loop that follows a waiting loop, when the signal pipe is
readable. -/
theorem event_loop_signal_round (pre rest : List Round) (r : Round) (t0 : Int)
    (g0 : Globals) (tcur : Int)
    (hpre : (event_loop pre t0 g0).ending = LoopEnd.waiting tcur)
    (hsig : dispatch r.poll = Dispatch.signal) :
    event_loop (pre ++ r :: rest) t0 g0 =
      { trace := (event_loop pre t0 g0).trace ++ [Action.poll (poll_timeout tcur)],
        ending := LoopEnd.done tcur,
        g := (event_loop pre t0 g0).g } := by
  have h0 := event_loop_waiting_nonneg pre t0 g0 tcur hpre
  rw [event_loop_append pre (r :: rest) t0 g0 tcur hpre]
  simp [event_loop, h0, hsig]

/-- The exit status of a child is never negative. -/
theorem WEXITSTATUS_nonneg (status : Int) : 0 ≤ WEXITSTATUS status := by
  unfold WEXITSTATUS
  omega

/-- After a loop left with a `timeout` that is not negative, the rest of `main`
reads the signal pipe once. -/
theorem teardown_reads (codes : ExitCodes) (signal : Int) (w : WaitOutcome) (t : Int)
    (g : Globals) (h : ¬ t < 0) :
    reads (teardown codes signal w t g).trace = [Action.read_signal] := by
  unfold teardown exit_status
  simp only [h, if_false, reads, stop_pppd]
  split_ifs <;> simp

/-- C2: when the loop of `main` ends because of a signal event, exactly one number
is read from the signal pipe.  If that number is `SIGCHLD`, `waitpid` returns the
tracked pid and the child exited normally with status `s`, `main` returns
`PPPD_EXITED + s`, the tracked pid is cleared and the `stop_pppd()` that follows
sends no signal; in every other case `main` returns `USER_REQUESTED`.  With
`USER_REQUESTED` below the range that starts at `PPPD_EXITED`, the status is
`PPPD_EXITED + s` exactly in the first case. -/
theorem signal_ends_run (codes : ExitCodes) (pre rest : List Round) (r : Round)
    (signal : Int) (w : WaitOutcome) (t0 : Int) (g0 : Globals) (tcur : Int)
    (hpre : (event_loop pre t0 g0).ending = LoopEnd.waiting tcur)
    (hsig : dispatch r.poll = Dispatch.signal) :
    reads (run_loop codes { rounds := pre ++ r :: rest, signal := signal, wait := w }
      t0 g0).trace = [Action.read_signal] ∧
    ((signal = SIGCHLD ∧ w.ret = (event_loop pre t0 g0).g.pppd_pid ∧
        WIFEXITED w.status = true) →
      run_loop codes { rounds := pre ++ r :: rest, signal := signal, wait := w } t0 g0 =
        { trace := (event_loop pre t0 g0).trace ++
            [Action.poll (poll_timeout tcur),
             Action.read_signal,
             Action.log LogLevel.INFO "Received signal %d",
             Action.waitpid (event_loop pre t0 g0).g.pppd_pid,
             Action.log LogLevel.INFO "Pppd is terminated (status = %d)",
             Action.stop_pppd,
             Action.shutdown,
             Action.log LogLevel.INFO "Mtpd is terminated (status = %d)",
             Action.stop_pppd],
          outcome := Outcome.returned (codes.PPPD_EXITED + WEXITSTATUS w.status),
          g := { (event_loop pre t0 g0).g with pppd_pid := 0 } } ∧
      kills (run_loop codes { rounds := pre ++ r :: rest, signal := signal, wait := w }
        t0 g0).trace = []) ∧
    (¬ (signal = SIGCHLD ∧ w.ret = (event_loop pre t0 g0).g.pppd_pid ∧
        WIFEXITED w.status = true) →
      (run_loop codes { rounds := pre ++ r :: rest, signal := signal, wait := w }
        t0 g0).outcome = Outcome.returned codes.USER_REQUESTED) ∧
    (codes.USER_REQUESTED < codes.PPPD_EXITED →
      ((run_loop codes { rounds := pre ++ r :: rest, signal := signal, wait := w }
          t0 g0).outcome = Outcome.returned (codes.PPPD_EXITED + WEXITSTATUS w.status) ↔
        (signal = SIGCHLD ∧ w.ret = (event_loop pre t0 g0).g.pppd_pid ∧
          WIFEXITED w.status = true))) := by
  have h0 := event_loop_waiting_nonneg pre t0 g0 tcur hpre
  have hnn : ¬ tcur < 0 := by omega
  have hq := event_loop_quiet pre t0 g0
  have hround := event_loop_signal_round pre rest r t0 g0 tcur hpre hsig
  have hexit := WEXITSTATUS_nonneg w.status
  have hyes : (signal = SIGCHLD ∧ w.ret = (event_loop pre t0 g0).g.pppd_pid ∧
        WIFEXITED w.status = true) →
      run_loop codes { rounds := pre ++ r :: rest, signal := signal, wait := w } t0 g0 =
        { trace := (event_loop pre t0 g0).trace ++
            [Action.poll (poll_timeout tcur),
             Action.read_signal,
             Action.log LogLevel.INFO "Received signal %d",
             Action.waitpid (event_loop pre t0 g0).g.pppd_pid,
             Action.log LogLevel.INFO "Pppd is terminated (status = %d)",
             Action.stop_pppd,
             Action.shutdown,
             Action.log LogLevel.INFO "Mtpd is terminated (status = %d)",
             Action.stop_pppd],
          outcome := Outcome.returned (codes.PPPD_EXITED + WEXITSTATUS w.status),
          g := { (event_loop pre t0 g0).g with pppd_pid := 0 } } := by
    rintro ⟨h1, h2, h3⟩
    unfold run_loop
    simp only [hround]
    simp [teardown, exit_status, hnn, h1, h3, ← h2, stop_pppd, Int.add_comm]
  have hno : ¬ (signal = SIGCHLD ∧ w.ret = (event_loop pre t0 g0).g.pppd_pid ∧
        WIFEXITED w.status = true) →
      (run_loop codes { rounds := pre ++ r :: rest, signal := signal, wait := w }
        t0 g0).outcome = Outcome.returned codes.USER_REQUESTED := by
    intro hc
    unfold run_loop
    simp only [hround]
    by_cases h1 : signal = SIGCHLD
    · have h23 : ¬ (w.ret = (event_loop pre t0 g0).g.pppd_pid ∧ WIFEXITED w.status = true) :=
        fun h => hc ⟨h1, h⟩
      simp [teardown, exit_status, hnn, h1, h23]
    · simp [teardown, exit_status, hnn, h1]
  refine ⟨?_, ?_, hno, ?_⟩
  · unfold run_loop
    simp only [hround]
    have ht := teardown_reads codes signal w tcur (event_loop pre t0 g0).g hnn
    simp only [reads] at hq ht
    simp [reads, hq.2.2.2, ht]
  · intro hc
    refine ⟨hyes hc, ?_⟩
    rw [hyes hc]
    simp only [kills] at hq
    simp [kills, hq.1]
  · intro hcodes
    constructor
    · intro hout
      by_contra hc
      rw [hno hc] at hout
      simp only [Outcome.returned.injEq] at hout
      omega
    · intro hc
      rw [hyes hc]


/-- The computation of `error` kills nothing, sleeps not and calls no `shutdown`. -/
theorem exit_status_quiet (codes : ExitCodes) (signal : Int) (w : WaitOutcome) (t : Int)
    (g : Globals) :
    kills (exit_status codes signal w t g).1 = [] ∧
    sleeps (exit_status codes signal w t g).1 = [] ∧
    shutdowns (exit_status codes signal w t g).1 = [] := by
  unfold exit_status
  split_ifs <;> simp [kills, sleeps, shutdowns]

/-- One call of `stop_pppd` kills and sleeps once when a child is tracked and not
at all otherwise, and calls no `shutdown`. -/
theorem stop_pppd_once (g : Globals) :
    kills (stop_pppd g).1 =
      (if g.pppd_pid ≠ 0 then [Action.kill g.pppd_pid SIGTERM] else []) ∧
    sleeps (stop_pppd g).1 = (if g.pppd_pid ≠ 0 then [Action.sleep 5] else []) ∧
    shutdowns (stop_pppd g).1 = [] := by
  by_cases h : g.pppd_pid = 0 <;> simp [stop_pppd, h, kills, sleeps, shutdowns]

/-- The run after the loop, by the way the loop stands at its end: left, or ended
by `exit(SYSTEM_ERROR)`. -/
theorem teardown_by_ending (codes : ExitCodes) (env : Env) (t : Int) (g : Globals) :
    (∀ tl, (event_loop env.rounds t g).ending = LoopEnd.done tl →
      (run_loop codes env t g).trace =
        (event_loop env.rounds t g).trace ++
        (exit_status codes env.signal env.wait tl (event_loop env.rounds t g).g).1 ++
        (stop_pppd (exit_status codes env.signal env.wait tl
          (event_loop env.rounds t g).g).2.2).1 ++
        [Action.shutdown, Action.log LogLevel.INFO "Mtpd is terminated (status = %d)",
         Action.stop_pppd] ∧
      (run_loop codes env t g).outcome = Outcome.returned
        (exit_status codes env.signal env.wait tl (event_loop env.rounds t g).g).2.1 ∧
      shutdowns (run_loop codes env t g).trace = [Action.shutdown] ∧
      kills (run_loop codes env t g).trace =
        (if (exit_status codes env.signal env.wait tl
            (event_loop env.rounds t g).g).2.2.pppd_pid ≠ 0 then
          [Action.kill (exit_status codes env.signal env.wait tl
            (event_loop env.rounds t g).g).2.2.pppd_pid SIGTERM]
         else []) ∧
      sleeps (run_loop codes env t g).trace =
        (if (exit_status codes env.signal env.wait tl
            (event_loop env.rounds t g).g).2.2.pppd_pid ≠ 0 then [Action.sleep 5]
         else [])) ∧
    ((event_loop env.rounds t g).ending = LoopEnd.fatal →
      (run_loop codes env t g).trace = (event_loop env.rounds t g).trace ++
          (stop_pppd (event_loop env.rounds t g).g).1 ∧
      (run_loop codes env t g).outcome = Outcome.exited codes.SYSTEM_ERROR ∧
      shutdowns (run_loop codes env t g).trace = [] ∧
      kills (run_loop codes env t g).trace =
        (if (event_loop env.rounds t g).g.pppd_pid ≠ 0 then
          [Action.kill (event_loop env.rounds t g).g.pppd_pid SIGTERM]
         else [])) := by
  have hq := event_loop_quiet env.rounds t g
  constructor
  · intro tl hdone
    have hs := exit_status_quiet codes env.signal env.wait tl (event_loop env.rounds t g).g
    have ho := stop_pppd_once (exit_status codes env.signal env.wait tl
      (event_loop env.rounds t g).g).2.2
    have htrace : (run_loop codes env t g).trace =
        (event_loop env.rounds t g).trace ++
        (exit_status codes env.signal env.wait tl (event_loop env.rounds t g).g).1 ++
        (stop_pppd (exit_status codes env.signal env.wait tl
          (event_loop env.rounds t g).g).2.2).1 ++
        [Action.shutdown, Action.log LogLevel.INFO "Mtpd is terminated (status = %d)",
         Action.stop_pppd] := by
      unfold run_loop
      simp [hdone, teardown, stop_pppd_twice]
    refine ⟨htrace, ?_, ?_, ?_, ?_⟩
    · unfold run_loop
      simp [hdone, teardown]
    · rw [htrace]
      simp only [shutdowns] at hq hs ho ⊢
      simp [hq.2.2.1, hs.2.2, ho.2.2]
    · rw [htrace, ← ho.1]
      simp only [kills] at hq hs ⊢
      simp [hq.1, hs.1]
    · rw [htrace, ← ho.2.1]
      simp only [sleeps] at hq hs ⊢
      simp [hq.2.1, hs.2.1]
  · intro hfatal
    have ho := stop_pppd_once (event_loop env.rounds t g).g
    have htrace : (run_loop codes env t g).trace = (event_loop env.rounds t g).trace ++
        (stop_pppd (event_loop env.rounds t g).g).1 := by
      unfold run_loop
      simp [hfatal, exit_process]
    refine ⟨htrace, ?_, ?_, ?_⟩
    · unfold run_loop
      simp [hfatal, exit_process]
    · rw [htrace]
      simp only [shutdowns] at hq ho ⊢
      simp [hq.2.2.1, ho.2.2]
    · rw [htrace, ← ho.1]
      simp only [kills] at hq ⊢
      simp [hq.1]

/-- The turn of the loop that follows a waiting loop, when `poll` fails with an
error other than `EINTR`. -/
theorem event_loop_fatal_round (pre rest : List Round) (r : Round) (t0 : Int)
    (g0 : Globals) (tcur : Int)
    (hpre : (event_loop pre t0 g0).ending = LoopEnd.waiting tcur)
    (hfail : r.poll.ret = -1 ∧ r.poll.errno ≠ EINTR) :
    event_loop (pre ++ r :: rest) t0 g0 =
      { trace := (event_loop pre t0 g0).trace ++
          [Action.poll (poll_timeout tcur), Action.log LogLevel.FATAL "Poll() %s"],
        ending := LoopEnd.fatal,
        g := (event_loop pre t0 g0).g } := by
  have h0 := event_loop_waiting_nonneg pre t0 g0 tcur hpre
  have hd : dispatch r.poll = Dispatch.fatal := by simp [dispatch, hfail]
  rw [event_loop_append pre (r :: rest) t0 g0 tcur hpre]
  simp [event_loop, h0, hd]

/-- C8, as the code has it.  In any turn that the loop of `main` reaches:
when `poll` fails (it returns -1 with an `errno` other than `EINTR`), the process
exits at once with `SYSTEM_ERROR`, `stop_pppd` runs as the exit handler (one
kill-and-wait when a child is tracked) and `shutdown()` is not called; when
`poll` does not fail so and reports a signal event, or reports none and the
callback returns a negative value, `error` is computed, `stop_pppd()` runs (one
kill-and-wait when a child is tracked at that moment, none otherwise), then
`shutdown()` exactly once, then `main` returns.  The same is stated for every
run by the way its loop ends. -/
theorem teardown_paths (codes : ExitCodes) (env : Env) (t : Int) (g : Globals) :
    (∀ tl, (event_loop env.rounds t g).ending = LoopEnd.done tl →
      (run_loop codes env t g).trace =
        (event_loop env.rounds t g).trace ++
        (exit_status codes env.signal env.wait tl (event_loop env.rounds t g).g).1 ++
        (stop_pppd (exit_status codes env.signal env.wait tl
          (event_loop env.rounds t g).g).2.2).1 ++
        [Action.shutdown, Action.log LogLevel.INFO "Mtpd is terminated (status = %d)",
         Action.stop_pppd] ∧
      (run_loop codes env t g).outcome = Outcome.returned
        (exit_status codes env.signal env.wait tl (event_loop env.rounds t g).g).2.1 ∧
      shutdowns (run_loop codes env t g).trace = [Action.shutdown] ∧
      kills (run_loop codes env t g).trace =
        (if (exit_status codes env.signal env.wait tl
            (event_loop env.rounds t g).g).2.2.pppd_pid ≠ 0 then
          [Action.kill (exit_status codes env.signal env.wait tl
            (event_loop env.rounds t g).g).2.2.pppd_pid SIGTERM]
         else []) ∧
      sleeps (run_loop codes env t g).trace =
        (if (exit_status codes env.signal env.wait tl
            (event_loop env.rounds t g).g).2.2.pppd_pid ≠ 0 then [Action.sleep 5]
         else [])) ∧
    ((event_loop env.rounds t g).ending = LoopEnd.fatal →
      (run_loop codes env t g).trace = (event_loop env.rounds t g).trace ++
          (stop_pppd (event_loop env.rounds t g).g).1 ∧
      (run_loop codes env t g).outcome = Outcome.exited codes.SYSTEM_ERROR ∧
      shutdowns (run_loop codes env t g).trace = [] ∧
      kills (run_loop codes env t g).trace =
        (if (event_loop env.rounds t g).g.pppd_pid ≠ 0 then
          [Action.kill (event_loop env.rounds t g).g.pppd_pid SIGTERM]
         else [])) ∧
    (∀ (pre rest : List Round) (r : Round) (tcur : Int),
      env.rounds = pre ++ r :: rest →
      (event_loop pre t g).ending = LoopEnd.waiting tcur →
      ((r.poll.ret = -1 ∧ r.poll.errno ≠ EINTR) →
        (run_loop codes env t g).trace =
          (event_loop pre t g).trace ++
          [Action.poll (poll_timeout tcur), Action.log LogLevel.FATAL "Poll() %s"] ++
          (stop_pppd (event_loop pre t g).g).1 ∧
        (run_loop codes env t g).outcome = Outcome.exited codes.SYSTEM_ERROR ∧
        shutdowns (run_loop codes env t g).trace = [] ∧
        kills (run_loop codes env t g).trace =
          (if (event_loop pre t g).g.pppd_pid ≠ 0 then
            [Action.kill (event_loop pre t g).g.pppd_pid SIGTERM]
           else [])) ∧
      (¬ (r.poll.ret = -1 ∧ r.poll.errno ≠ EINTR) → r.poll.revents0 ≠ 0 →
        (run_loop codes env t g).trace =
          (event_loop pre t g).trace ++ [Action.poll (poll_timeout tcur)] ++
          (exit_status codes env.signal env.wait tcur (event_loop pre t g).g).1 ++
          (stop_pppd (exit_status codes env.signal env.wait tcur
            (event_loop pre t g).g).2.2).1 ++
          [Action.shutdown, Action.log LogLevel.INFO "Mtpd is terminated (status = %d)",
           Action.stop_pppd] ∧
        (run_loop codes env t g).outcome = Outcome.returned
          (exit_status codes env.signal env.wait tcur (event_loop pre t g).g).2.1 ∧
        shutdowns (run_loop codes env t g).trace = [Action.shutdown] ∧
        kills (run_loop codes env t g).trace =
          (if (exit_status codes env.signal env.wait tcur
              (event_loop pre t g).g).2.2.pppd_pid ≠ 0 then
            [Action.kill (exit_status codes env.signal env.wait tcur
              (event_loop pre t g).g).2.2.pppd_pid SIGTERM]
           else [])) ∧
      (¬ (r.poll.ret = -1 ∧ r.poll.errno ≠ EINTR) → r.poll.revents0 = 0 →
        r.callback.ret < 0 →
        (run_loop codes env t g).trace =
          (event_loop pre t g).trace ++
          [Action.poll (poll_timeout tcur),
           if r.poll.revents1 ≠ 0 then Action.process else Action.timeout] ++
          (stop_pppd (after_callback (event_loop pre t g).g r.callback)).1 ++
          [Action.shutdown, Action.log LogLevel.INFO "Mtpd is terminated (status = %d)",
           Action.stop_pppd] ∧
        (run_loop codes env t g).outcome = Outcome.returned (neg_int r.callback.ret) ∧
        shutdowns (run_loop codes env t g).trace = [Action.shutdown] ∧
        kills (run_loop codes env t g).trace =
          (if r.callback.pppd_pid ≠ 0 then [Action.kill r.callback.pppd_pid SIGTERM]
           else []))) := by
  obtain ⟨hdone, hfatal⟩ := teardown_by_ending codes env t g
  refine ⟨hdone, hfatal, ?_⟩
  intro pre rest r tcur hrounds hpre
  refine ⟨?_, ?_, ?_⟩
  · intro hfail
    have hl := event_loop_fatal_round pre rest r t g tcur hpre hfail
    rw [← hrounds] at hl
    have h := hfatal (by rw [hl])
    simp only [hl] at h
    exact h
  · intro hok hsig
    have hd : dispatch r.poll = Dispatch.signal := by simp [dispatch, hok, hsig]
    have hl := event_loop_signal_round pre rest r t g tcur hpre hd
    rw [← hrounds] at hl
    have h := hdone tcur (by rw [hl])
    simp only [hl] at h
    exact ⟨h.1, h.2.1, h.2.2.1, h.2.2.2.1⟩
  · intro hok hquiet hneg
    have hd : dispatch r.poll =
        (if r.poll.revents1 ≠ 0 then Dispatch.process else Dispatch.timeout) := by
      simp [dispatch, hok, hquiet]
    have hcall : dispatch r.poll = Dispatch.process ∨ dispatch r.poll = Dispatch.timeout := by
      rw [hd]
      split_ifs
      · exact Or.inl rfl
      · exact Or.inr rfl
    have hact : (if dispatch r.poll = Dispatch.process then Action.process
        else Action.timeout) =
        (if r.poll.revents1 ≠ 0 then Action.process else Action.timeout) := by
      rw [hd]
      split_ifs <;> simp_all
    have hl := event_loop_callback_round pre rest r t g tcur hpre hcall
    rw [event_loop_negative rest _ _ hneg, hact, ← hrounds] at hl
    have h := hdone r.callback.ret (by rw [hl])
    simp only [hl] at h
    have hs : exit_status codes env.signal env.wait r.callback.ret
        (after_callback (event_loop pre t g).g r.callback) =
        ([], neg_int r.callback.ret, after_callback (event_loop pre t g).g r.callback) := by
      simp [exit_status, hneg]
    simp only [hs, List.append_nil] at h
    refine ⟨?_, h.2.1, h.2.2.1, ?_⟩
    · rw [h.1]
    · simpa [after_callback] using h.2.2.2.1

/-- The loop over the candidates stops at the first reachable one: `the_socket` is
the descriptor made for it, it was tried, and no later candidate is. -/
theorem try_candidates_first (records : List Candidate) (i k : Nat) (s : Int) (c : Candidate)
    (hk : records[k]? = some c) (hc : c.reachable)
    (hmin : ∀ j d, j < k → records[j]? = some d → ¬ d.reachable) :
    (try_candidates records i s).2 = c.socket_ret ∧
    Action.socket (i + k) ∈ (try_candidates records i s).1 ∧
    Action.sys_connect (i + k) ∈ (try_candidates records i s).1 ∧
    ∀ j, i + k < j → Action.socket j ∉ (try_candidates records i s).1 ∧
      Action.sys_connect j ∉ (try_candidates records i s).1 := by
  induction records generalizing i k s with
  | nil => simp at hk
  | cons r rest ih =>
    cases k with
    | zero =>
      simp at hk
      subst hk
      obtain ⟨h1, h2⟩ := hc
      simp [try_candidates, h1, h2]
      intro j hj
      omega
    | succ n =>
      have hr : ¬ r.reachable := hmin 0 r (Nat.succ_pos n) (by simp)
      have hrest := ih (i + 1) n r.socket_ret (by simpa using hk)
        (fun j d hj hd => hmin (j + 1) d (Nat.succ_lt_succ hj) (by simpa using hd))
      rw [show i + 1 + n = i + (n + 1) by omega] at hrest
      obtain ⟨e1, e2, e3, e4⟩ := hrest
      unfold Candidate.reachable at hr
      by_cases h1 : r.socket_ret = -1
      · simp only [try_candidates, h1, ne_eq, not_true_eq_false, if_false]
        rw [h1] at e1 e2 e3 e4
        refine ⟨e1, List.mem_cons_of_mem _ e2, List.mem_cons_of_mem _ e3, ?_⟩
        intro j hj
        have := e4 j hj
        simp only [List.mem_cons, Action.socket.injEq, reduceCtorEq, false_or, not_or]
        exact ⟨⟨by omega, this.1⟩, this.2⟩
      · have h2 : r.connect_ret ≠ 0 := fun h => hr ⟨h1, h⟩
        simp only [try_candidates, h1, h2, ne_eq, not_false_eq_true, if_true, if_false]
        refine ⟨e1, List.mem_cons_of_mem _ (List.mem_cons_of_mem _ e2),
          List.mem_cons_of_mem _ (List.mem_cons_of_mem _ e3), ?_⟩
        intro j hj
        have := e4 j hj
        simp only [List.mem_cons, Action.socket.injEq, Action.sys_connect.injEq, reduceCtorEq,
          false_or, not_or]
        exact ⟨⟨by omega, this.1⟩, ⟨by omega, this.2⟩⟩

/-- C6: when at least one candidate address gives a socket and connects,
`create_socket` returns normally with `the_socket` equal to the descriptor made
for the first such candidate in the order of the resolver (a value other than
-1), and no candidate after that one is tried. -/
theorem create_socket_first_reachable (codes : ExitCodes) (records : List Candidate)
    (g : Globals) (k : Nat) (c : Candidate)
    (hk : records[k]? = some c) (hc : c.reachable)
    (hmin : ∀ j d, j < k → records[j]? = some d → ¬ d.reachable) :
    (create_socket codes 0 records g).result = Ret.ret () ∧
    (create_socket codes 0 records g).g.the_socket = c.socket_ret ∧
    (create_socket codes 0 records g).g.the_socket ≠ -1 ∧
    Action.sys_connect k ∈ (create_socket codes 0 records g).trace ∧
    (∀ j, k < j → Action.socket j ∉ (create_socket codes 0 records g).trace ∧
      Action.sys_connect j ∉ (create_socket codes 0 records g).trace) := by
  obtain ⟨e1, _, e3, e4⟩ := try_candidates_first records 0 k g.the_socket c hk hc hmin
  have hne : c.socket_ret ≠ -1 := hc.1
  simp only [Nat.zero_add] at e3 e4
  have hrun : create_socket codes 0 records g =
      { trace := Action.log LogLevel.INFO "Connecting to %s port %s" ::
          (try_candidates records 0 g.the_socket).1 ++
          [Action.fcntl_cloexec c.socket_ret,
           Action.log LogLevel.INFO "Connection established (socket = %d)"],
        result := Ret.ret (),
        g := { g with the_socket := c.socket_ret } } := by
    simp [create_socket, e1, hne]
  rw [hrun]
  refine ⟨rfl, rfl, hne, ?_, ?_⟩
  · simp [e3]
  · intro j hj
    have := e4 j hj
    simp [this.1, this.2]

/-- What `execvp` reads from an array that holds the strings of `l` and then a null
pointer. -/
theorem read_argv_terminated (l : List String) (rest : List (Option String)) :
    read_argv (l.map some ++ none :: rest) = some l := by
  induction l with
  | nil => rfl
  | cons a l ih => simp [read_argv, ih]

/-- The copy loop writes the next `n` strings of `pppd_argv` behind the filled part
of the array, as long as there is room. -/
theorem copy_args_spec (pppd_argv : List String) (n i : Nat) (front : List (Option String))
    (m : Nat) (hfront : front.length = 4 + i) (hargv : i + n ≤ pppd_argv.length)
    (hroom : n ≤ m) :
    copy_args pppd_argv n i (front ++ List.replicate m none) =
      some (front ++ ((pppd_argv.drop i).take n).map some ++ List.replicate (m - n) none) := by
  induction n generalizing i front m with
  | zero => simp [copy_args]
  | succ n ih =>
    have hi : i < pppd_argv.length := by omega
    obtain ⟨m1, hm1⟩ : ∃ m1, m = m1 + 1 := ⟨m - 1, by omega⟩
    subst hm1
    have hget : pppd_argv[i]? = some pppd_argv[i] := List.getElem?_eq_getElem hi
    have hset : (front ++ List.replicate (m1 + 1) none).set (4 + i) (some pppd_argv[i]) =
        (front ++ [some pppd_argv[i]]) ++ List.replicate m1 none := by
      have hnot : ¬ (4 + i < front.length) := by omega
      have hzero : 4 + i - front.length = 0 := by omega
      rw [List.set_append]
      simp only [hnot, if_false, hzero, List.replicate_succ, List.set_cons_zero]
      simp
    have hdrop : pppd_argv.drop i = pppd_argv[i] :: pppd_argv.drop (i + 1) :=
      List.drop_eq_getElem_cons hi
    have hlen : 4 + i < (front ++ List.replicate (m1 + 1) none).length := by
      simp [hfront]
    simp only [copy_args, hget, hlen, if_true, hset]
    rw [ih (i + 1) (front ++ [some pppd_argv[i]]) m1 (by simp [hfront]; omega) (by omega)
      (by omega)]
    rw [hdrop, List.take_succ_cons, List.map_cons, Nat.add_sub_add_right]
    simp


/-- C9: `stop_pppd` is idempotent on the tracked-child state.  With a tracked child
it sends `SIGTERM` once, sleeps five seconds and clears the pid; a call with no
tracked child, and so a second call right after the first, sends no signal, does
not sleep and leaves the state as it is; two calls in a row kill and wait at most
once. -/
theorem stop_pppd_idempotent (g : Globals) :
    (g.pppd_pid ≠ 0 →
      kills (stop_pppd g).1 = [Action.kill g.pppd_pid SIGTERM] ∧
      sleeps (stop_pppd g).1 = [Action.sleep 5] ∧
      (stop_pppd g).2 = { g with pppd_pid := 0 }) ∧
    (g.pppd_pid = 0 → stop_pppd g = ([Action.stop_pppd], g)) ∧
    stop_pppd (stop_pppd g).2 = ([Action.stop_pppd], (stop_pppd g).2) ∧
    (kills ((stop_pppd g).1 ++ (stop_pppd (stop_pppd g).2).1)).length ≤ 1 ∧
    (sleeps ((stop_pppd g).1 ++ (stop_pppd (stop_pppd g).2).1)).length ≤ 1 := by
  by_cases h : g.pppd_pid = 0
  · simp [stop_pppd, h, kills, sleeps]
  · simp [stop_pppd, h, kills, sleeps]

/-- The character written for a digit below ten is a decimal digit with that
value, and it is the character 0 only for the digit zero. -/
theorem digitChar_value (k : Nat) (h : k < 10) :
    (Nat.digitChar k).toNat - 48 = k ∧ (Nat.digitChar k).isDigit = true ∧
    (0 < k → Nat.digitChar k ≠ '0') := by
  interval_cases k <;> decide

/-- The digits are written in front of what is there already. -/
theorem toDigitsCore_append (fuel n : Nat) (ds : List Char) :
    Nat.toDigitsCore 10 fuel n ds = Nat.toDigitsCore 10 fuel n [] ++ ds := by
  induction fuel generalizing n ds with
  | zero => simp [Nat.toDigitsCore]
  | succ f ih =>
    simp only [Nat.toDigitsCore]
    split
    · simp
    · rw [ih (n / 10) (Nat.digitChar (n % 10) :: ds), ih (n / 10) [Nat.digitChar (n % 10)]]
      simp

/-- The digits written for `n` are decimal digits, at least one, without a
leading zero for a positive `n`, and they write `n`. -/
theorem toDigitsCore_spec (fuel n : Nat) (h : n < fuel) :
    Nat.toDigitsCore 10 fuel n [] ≠ [] ∧
    (∀ c ∈ Nat.toDigitsCore 10 fuel n [], c.isDigit = true) ∧
    (0 < n → (Nat.toDigitsCore 10 fuel n []).head? ≠ some '0') ∧
    decimal_value (Nat.toDigitsCore 10 fuel n []) = n := by
  induction fuel generalizing n with
  | zero => omega
  | succ f ih =>
    have hd := digitChar_value (n % 10) (Nat.mod_lt n (by decide))
    simp only [Nat.toDigitsCore]
    by_cases h0 : n / 10 = 0
    · have hn : n % 10 = n := by omega
      simp only [h0, if_true]
      refine ⟨by simp, ?_, ?_, ?_⟩
      · intro c hc
        simp at hc
        rw [hc]
        exact hd.2.1
      · intro hpos
        simp only [List.head?_cons, ne_eq, Option.some.injEq]
        exact hd.2.2 (by omega)
      · rw [hn] at hd
        simp [decimal_value, hd.1, hn]
    · simp only [h0, if_false]
      rw [toDigitsCore_append]
      obtain ⟨i1, i2, i3, i4⟩ := ih (n / 10) (by omega)
      refine ⟨by simp [i1], ?_, ?_, ?_⟩
      · intro c hc
        rcases List.mem_append.mp hc with hc | hc
        · exact i2 c hc
        · simp at hc
          rw [hc]
          exact hd.2.1
      · intro _
        rw [List.head?_append_of_ne_nil _ i1]
        exact i3 (by omega)
      · unfold decimal_value at i4 ⊢
        rw [List.foldl_append, i4]
        simp [hd.1]
        omega

/-- The string written for a natural number. -/
theorem repr_spec (n : Nat) :
    ∃ cs : List Char, Nat.repr n = String.mk cs ∧ cs ≠ [] ∧ (∀ c ∈ cs, c.isDigit = true) ∧
      (0 < n → cs.head? ≠ some '0') ∧ decimal_value cs = n := by
  obtain ⟨h1, h2, h3, h4⟩ := toDigitsCore_spec (n + 1) n (by omega)
  exact ⟨Nat.toDigitsCore 10 (n + 1) n [], rfl, h1, h2, h3, h4⟩

/-- The string that `sprintf(number, "%d", pppox)` writes is the decimal string of
`pppox`: a minus sign exactly for a negative number, then decimal digits that
write its absolute value, without a leading zero (the single digit 0 for zero). -/
theorem decimal_spec (d : Int) :
    ∃ cs : List Char, decimal d = (if d < 0 then "-" else "") ++ String.mk cs ∧ cs ≠ [] ∧
      (∀ c ∈ cs, c.isDigit = true) ∧ (d ≠ 0 → cs.head? ≠ some '0') ∧
      (d = 0 → cs = ['0']) ∧ decimal_value cs = d.natAbs := by
  cases d with
  | ofNat m =>
    obtain ⟨cs, h1, h2, h3, h4, h5⟩ := repr_spec m
    refine ⟨cs, ?_, h2, h3, ?_, ?_, ?_⟩
    · have : ¬ (Int.ofNat m < 0) := by simp
      simp only [this, if_false]
      show Nat.repr m = "" ++ String.mk cs
      rw [h1]
      rfl
    · intro hne
      apply h4
      cases m with
      | zero => exact absurd rfl hne
      | succ k => omega
    · intro hz
      have hm : m = 0 := by simpa using hz
      subst hm
      have : Nat.repr 0 = "0" := rfl
      rw [this] at h1
      have := congrArg String.data h1
      simpa using this.symm
    · simpa using h5
  | negSucc m =>
    obtain ⟨cs, h1, h2, h3, h4, h5⟩ := repr_spec (m + 1)
    refine ⟨cs, ?_, h2, h3, ?_, ?_, ?_⟩
    · have : Int.negSucc m < 0 := Int.negSucc_lt_zero m
      simp only [this, if_true]
      show "-" ++ Nat.repr (m + 1) = "-" ++ String.mk cs
      rw [h1]
    · intro _
      exact h4 (by omega)
    · intro hz
      exact absurd hz (by simp)
    · simpa using h5

/-- The child made by `start_pppd`, with the string that `sprintf` writes in the
fourth place of `args`. -/
theorem start_pppd_child_args (codes : ExitCodes) (d : Int) (exec_fails : Bool)
    (g : Globals) (a : List String)
    (hpid : g.pppd_pid = 0) (hrec : child_args g = a) (hlen : g.pppd_argc = a.length)
    (hn : a.length ≤ 1019) :
    copy_args g.pppd_argv g.pppd_argc 0 (initial_args d) =
      some ((["", "nodetach", "pppox", decimal d] ++ a).map some ++
        List.replicate (1020 - a.length) none) ∧
    ((["", "nodetach", "pppox", decimal d] ++ a).map some ++
        List.replicate (1020 - a.length) none).length = 1024 ∧
    ((["", "nodetach", "pppox", decimal d] ++ a).map some ++
        List.replicate (1020 - a.length) none)[4 + a.length]? = some none ∧
    start_pppd codes d 0 exec_fails g =
      (if exec_fails = true then
        Started.child_exit
          [Action.log LogLevel.INFO "Starting pppd (pppox = %d)", Action.fork,
           Action.execvp "pppd" (["", "nodetach", "pppox", decimal d] ++ a),
           Action.log LogLevel.FATAL "Exec() %s"] 1
       else
        Started.child_exec
          [Action.log LogLevel.INFO "Starting pppd (pppox = %d)", Action.fork,
           Action.execvp "pppd" (["", "nodetach", "pppox", decimal d] ++ a)]) := by
  have hle : g.pppd_argc ≤ g.pppd_argv.length := by
    have := congrArg List.length hrec
    simp only [child_args, List.length_take] at this
    omega
  have hcopy : copy_args g.pppd_argv g.pppd_argc 0 (initial_args d) =
      some ((["", "nodetach", "pppox", decimal d] ++ a).map some ++
        List.replicate (1020 - a.length) none) := by
    have := copy_args_spec g.pppd_argv g.pppd_argc 0
      [some "", some "nodetach", some "pppox", some (decimal d)] 1020 rfl (by omega) (by omega)
    unfold child_args at hrec
    simp only [List.drop_zero] at this
    unfold initial_args
    rw [this, hrec, hlen]
    simp
  have hterm : List.replicate (1020 - a.length) (none : Option String) =
      none :: List.replicate (1019 - a.length) none := by
    rw [show 1020 - a.length = (1019 - a.length) + 1 by omega, List.replicate_succ]
  have hfilled : ((["", "nodetach", "pppox", decimal d] ++ a).map some).length
      = 4 + a.length := by
    simp
    omega
  have hread : (copy_args g.pppd_argv g.pppd_argc 0 (initial_args d)).bind read_argv =
      some (["", "nodetach", "pppox", decimal d] ++ a) := by
    rw [hcopy, hterm]
    exact read_argv_terminated _ _
  refine ⟨hcopy, ?_, ?_, ?_⟩
  · rw [List.length_append, hfilled, List.length_replicate]
    omega
  · rw [hterm, List.getElem?_append_right (le_of_eq hfilled), hfilled, Nat.sub_self]
    simp
  · unfold start_pppd
    cases exec_fails <;> simp [hpid, hread]

/-- C7: for every descriptor number `d` and every recorded list of `n <= 1019`
arguments for pppd, the child made by `start_pppd` fills the 1024 places of
`args` without a write outside of it and passes to `execvp` exactly the empty
program name, "nodetach", "pppox", the decimal string of `d` (a minus
sign exactly when `d` is negative, then the decimal digits of its absolute value
without a leading zero) and then the recorded arguments in their order, with a
null pointer behind them; this is so whether `execvp` succeeds or comes back. -/
theorem start_pppd_child_argv (codes : ExitCodes) (d : Int) (exec_fails : Bool)
    (g : Globals) (a : List String)
    (hpid : g.pppd_pid = 0) (hrec : child_args g = a) (hlen : g.pppd_argc = a.length)
    (hn : a.length ≤ 1019) :
    ∃ cs : List Char, cs ≠ [] ∧ (∀ c ∈ cs, c.isDigit = true) ∧
      (d ≠ 0 → cs.head? ≠ some '0') ∧ (d = 0 → cs = ['0']) ∧
      decimal_value cs = d.natAbs ∧
      copy_args g.pppd_argv g.pppd_argc 0 (initial_args d) =
        some ((["", "nodetach", "pppox", (if d < 0 then "-" else "") ++ String.mk cs]
            ++ a).map some ++
          List.replicate (1020 - a.length) none) ∧
      ((["", "nodetach", "pppox", (if d < 0 then "-" else "") ++ String.mk cs]
            ++ a).map some ++
          List.replicate (1020 - a.length) none).length = 1024 ∧
      ((["", "nodetach", "pppox", (if d < 0 then "-" else "") ++ String.mk cs]
            ++ a).map some ++
          List.replicate (1020 - a.length) none)[4 + a.length]? = some none ∧
      start_pppd codes d 0 exec_fails g =
        (if exec_fails = true then
          Started.child_exit
            [Action.log LogLevel.INFO "Starting pppd (pppox = %d)", Action.fork,
             Action.execvp "pppd"
               (["", "nodetach", "pppox", (if d < 0 then "-" else "") ++ String.mk cs] ++ a),
             Action.log LogLevel.FATAL "Exec() %s"] 1
         else
          Started.child_exec
            [Action.log LogLevel.INFO "Starting pppd (pppox = %d)", Action.fork,
             Action.execvp "pppd"
               (["", "nodetach", "pppox", (if d < 0 then "-" else "") ++ String.mk cs]
                 ++ a)]) := by
  obtain ⟨cs, hdec, c1, c2, c3, c4, c5⟩ := decimal_spec d
  refine ⟨cs, c1, c2, c3, c4, c5, ?_⟩
  rw [← hdec]
  exact start_pppd_child_args codes d exec_fails g a hpid hrec hlen hn

/-- C5, the code at a failing input: one candidate address for which `socket`
returns the descriptor 3 and `connect` fails.  No candidate is reachable, but
`create_socket` returns normally, reports an established connection and leaves
`the_socket` at 3. -/
theorem create_socket_keeps_failed_socket (codes : ExitCodes) :
    ¬ ({ socket_ret := 3, connect_ret := -1 } : Candidate).reachable ∧
    create_socket codes 0 [{ socket_ret := 3, connect_ret := -1 }] Globals.initial =
      { trace := [Action.log LogLevel.INFO "Connecting to %s port %s",
                  Action.socket 0, Action.sys_connect 0, Action.fcntl_cloexec 3,
                  Action.log LogLevel.INFO "Connection established (socket = %d)"],
        result := Ret.ret (),
        g := { Globals.initial with the_socket := 3 } } := by
  constructor
  · decide
  · simp [create_socket, try_candidates, Globals.initial]

/-- C8 as stated fails: `poll` fails with `EBADF` while a child is tracked.  The
process exits with `SYSTEM_ERROR`; the child is killed by the exit handler, but
`shutdown()` is never called. -/
theorem failed_poll_skips_shutdown :
    run_loop sample_codes env_failed_poll 1000 Globals.initial =
      { trace := [Action.poll 1000, Action.process, Action.poll 3000,
                  Action.log LogLevel.FATAL "Poll() %s",
                  Action.stop_pppd,
                  Action.log LogLevel.INFO "Sending signal to pppd (pid = %d)",
                  Action.kill 77 SIGTERM, Action.sleep 5],
        outcome := Outcome.exited sample_codes.SYSTEM_ERROR,
        g := { the_socket := 5, the_protocol := none, pppd_argc := 0, pppd_argv := [],
               pppd_pid := 0 } } ∧
    shutdowns (run_loop sample_codes env_failed_poll 1000 Globals.initial).trace = [] := by
  decide

/-- C9 at a state with the tracked child 77 and at the state after it. -/
theorem stop_pppd_idempotent_witness :
    sample_tracked.pppd_pid ≠ 0 ∧
    kills (stop_pppd sample_tracked).1 = [Action.kill sample_tracked.pppd_pid SIGTERM] ∧
    sleeps (stop_pppd sample_tracked).1 = [Action.sleep 5] ∧
    stop_pppd sample_untracked = ([Action.stop_pppd], sample_untracked) :=
  ⟨by decide,
   ((stop_pppd_idempotent sample_tracked).1 (by decide)).1,
   ((stop_pppd_idempotent sample_tracked).1 (by decide)).2.1,
   (stop_pppd_idempotent sample_untracked).2.1 (by decide)⟩

/-- C1 at a run whose second turn has `process()` return `-NETWORK_ERROR`. -/
theorem negative_callback_ends_run_witness :
    (event_loop [round_data] 1000 Globals.initial).ending = LoopEnd.waiting 3000 ∧
    round_network_error.callback.ret < 0 ∧
    (run_loop sample_codes env_network_error 1000 Globals.initial).trace =
      [Action.poll 1000, Action.process, Action.poll 3000, Action.process,
       Action.stop_pppd, Action.log LogLevel.INFO "Sending signal to pppd (pid = %d)",
       Action.kill 77 SIGTERM, Action.sleep 5,
       Action.shutdown, Action.log LogLevel.INFO "Mtpd is terminated (status = %d)",
       Action.stop_pppd] ∧
    (run_loop sample_codes env_network_error 1000 Globals.initial).outcome =
      Outcome.returned sample_codes.NETWORK_ERROR :=
  ⟨by decide, by decide,
   congrArg Run.trace
     (negative_callback_ends_run sample_codes [round_data] [round_expired] round_network_error
       0 wait_exit_2 1000 Globals.initial 3000 (by decide) (by decide) (by decide)).1,
   ((negative_callback_ends_run sample_codes [round_data] [round_expired] round_network_error
       0 wait_exit_2 1000 Globals.initial 3000 (by decide) (by decide) (by decide)).2
       (by decide)).2 (by decide)⟩

/-- C2 at a run in which pppd exits with status 2 while the loop waits. -/
theorem signal_ends_run_witness :
    dispatch round_signal.poll = Dispatch.signal ∧
    reads (run_loop sample_codes env_child_exit 1000 Globals.initial).trace
      = [Action.read_signal] ∧
    (run_loop sample_codes env_child_exit 1000 Globals.initial).outcome =
      Outcome.returned (sample_codes.PPPD_EXITED + 2) ∧
    kills (run_loop sample_codes env_child_exit 1000 Globals.initial).trace = [] :=
  ⟨by decide,
   (signal_ends_run sample_codes [round_data, round_expired] [] round_signal 17 wait_exit_2
     1000 Globals.initial 0 (by decide) (by decide)).1,
   congrArg Run.outcome
     ((signal_ends_run sample_codes [round_data, round_expired] [] round_signal 17 wait_exit_2
       1000 Globals.initial 0 (by decide) (by decide)).2.1
       ⟨by decide, by decide, by decide⟩).1,
   ((signal_ends_run sample_codes [round_data, round_expired] [] round_signal 17 wait_exit_2
       1000 Globals.initial 0 (by decide) (by decide)).2.1
       ⟨by decide, by decide, by decide⟩).2⟩

/-- C3 at the sample command line, at a command line without arguments and at
one that names the protocol "foo". -/
theorem initialize_selects_protocol_witness :
    (∃ args, connects (initialize_mtpd sample_codes [sample_l2tp] sample_argv
        Globals.initial).trace = [Action.proto_connect 0 args] ∧
      (initialize_mtpd sample_codes [sample_l2tp] sample_argv Globals.initial).g.the_protocol
        = some 0) ∧
    (initialize_mtpd sample_codes [sample_l2tp] ["mtpd"] Globals.initial).result
      = Ret.exit sample_codes.USAGE_ERROR ∧
    (initialize_mtpd sample_codes [sample_l2tp] ["mtpd", "foo"] Globals.initial).result
      = Ret.exit sample_codes.USAGE_ERROR ∧
    connects (initialize_mtpd sample_codes [sample_l2tp] ["mtpd", "foo"]
      Globals.initial).trace = [] ∧
    (main sample_codes [sample_l2tp] 0 env_sigterm ["mtpd", "foo"]).outcome
      = Outcome.exited sample_codes.USAGE_ERROR :=
  ⟨(initialize_selects_protocol sample_codes [sample_l2tp] sample_argv Globals.initial).1
      "l2tp" 0 sample_l2tp rfl rfl rfl (fun j _ hj => absurd hj (Nat.not_lt_zero j)),
   (((initialize_selects_protocol sample_codes [sample_l2tp] ["mtpd"] Globals.initial).2
      (Or.inl (by decide))).1 rfl).2.2.2,
   (((initialize_selects_protocol sample_codes [sample_l2tp] ["mtpd", "foo"] Globals.initial).2
      (Or.inr (by simp [sample_l2tp]))).1 rfl).2.2.2,
   (((initialize_selects_protocol sample_codes [sample_l2tp] ["mtpd", "foo"] Globals.initial).2
      (Or.inr (by simp [sample_l2tp]))).1 rfl).2.2.1,
   (((initialize_selects_protocol sample_codes [sample_l2tp] ["mtpd", "foo"] Globals.initial).2
      (Or.inr (by simp [sample_l2tp]))).2 0 env_sigterm (by decide)).2⟩

/-- C4 at the sample command line, whose first empty argument is `argv[4]`. -/
theorem initialize_splits_arguments_witness :
    sample_argv[4]? = some "" ∧
    ∃ k, connects (initialize_mtpd sample_codes [sample_l2tp] sample_argv
        Globals.initial).trace = [Action.proto_connect k ["vpn.example.org", "1701"]] ∧
      child_args (initialize_mtpd sample_codes [sample_l2tp] sample_argv Globals.initial).g
        = ["debug", "mtu"] := by
  refine ⟨rfl, ?_⟩
  obtain ⟨k, h1, _, _, _, _, h5, _⟩ :=
    (initialize_splits_arguments sample_codes [sample_l2tp] sample_argv Globals.initial "l2tp"
      rfl ⟨sample_l2tp, by simp, rfl⟩).1 4 (by decide) rfl
      (by
        intro j h2 h4
        interval_cases j <;> decide)
  exact ⟨k, h1, h5⟩

/-- C6 at four candidates of which the third is the first reachable one. -/
theorem create_socket_first_reachable_witness :
    (create_socket sample_codes 0 sample_records Globals.initial).result = Ret.ret () ∧
    (create_socket sample_codes 0 sample_records Globals.initial).g.the_socket = 4 ∧
    Action.socket 3 ∉ (create_socket sample_codes 0 sample_records Globals.initial).trace := by
  have h := create_socket_first_reachable sample_codes sample_records Globals.initial 2
    { socket_ret := 4, connect_ret := 0 } rfl (by decide)
    (by
      intro j d hj hd
      interval_cases j
      · simp [sample_records] at hd
        subst hd
        decide
      · simp [sample_records] at hd
        subst hd
        decide)
  exact ⟨h.1, h.2.1, (h.2.2.2.2 3 (by decide)).1⟩

/-- C7 at the descriptor 7 and the two recorded arguments "debug" and "mtu": the
vector given to `execvp` has "7" in the fourth place. -/
theorem start_pppd_child_argv_witness :
    start_pppd sample_codes 7 0 false sample_untracked =
      Started.child_exec
        [Action.log LogLevel.INFO "Starting pppd (pppox = %d)", Action.fork,
         Action.execvp "pppd" ["", "nodetach", "pppox", "7", "debug", "mtu"]] ∧
    ∃ cs : List Char, decimal_value cs = 7 ∧
      start_pppd sample_codes 7 0 false sample_untracked =
        Started.child_exec
          [Action.log LogLevel.INFO "Starting pppd (pppox = %d)", Action.fork,
           Action.execvp "pppd"
             (["", "nodetach", "pppox", "" ++ String.mk cs] ++ ["debug", "mtu"])] := by
  constructor
  · have hseven : decimal 7 = "7" := by decide
    have h := (start_pppd_child_args sample_codes 7 false sample_untracked ["debug", "mtu"]
      rfl rfl rfl (by decide)).2.2.2
    rw [hseven] at h
    exact h
  · obtain ⟨cs, _, _, _, _, h5, _, _, _, h9⟩ :=
      start_pppd_child_argv sample_codes 7 false sample_untracked ["debug", "mtu"] rfl rfl rfl
        (by decide)
    exact ⟨cs, h5, h9⟩

/-- C8, as the code has it, at a run ended by `SIGTERM` and at a run ended by a
failing `poll` (-1 with `EBADF`) in its second turn. -/
theorem teardown_paths_witness :
    shutdowns (run_loop sample_codes env_sigterm 1000 Globals.initial).trace
      = [Action.shutdown] ∧
    (round_failed.poll.ret = -1 ∧ round_failed.poll.errno ≠ EINTR) ∧
    (run_loop sample_codes env_failed_poll 1000 Globals.initial).outcome
      = Outcome.exited sample_codes.SYSTEM_ERROR ∧
    shutdowns (run_loop sample_codes env_failed_poll 1000 Globals.initial).trace = [] ∧
    kills (run_loop sample_codes env_failed_poll 1000 Globals.initial).trace
      = [Action.kill 77 SIGTERM] ∧
    (run_loop sample_codes env_failed_first 1000 sample_tracked).outcome
      = Outcome.exited sample_codes.SYSTEM_ERROR ∧
    shutdowns (run_loop sample_codes env_failed_first 1000 sample_tracked).trace = [] := by
  have h1 := (teardown_paths sample_codes env_sigterm 1000 Globals.initial).1 3000 (by decide)
  have h3 := ((teardown_paths sample_codes env_failed_poll 1000 Globals.initial).2.2
    [round_data] [] round_failed 3000 rfl (by decide)).1 (by decide)
  have h4 := ((teardown_paths sample_codes env_failed_first 1000 sample_tracked).2.2
    [] [] round_failed_unwritten 1000 rfl (by decide)).1 (by decide)
  exact ⟨h1.2.2.1, by decide, h3.2.1, h3.2.2.1, h3.2.2.2, h4.2.1, h4.2.2.1⟩

end Mtpd
